import Mathlib

/-!
Verification development for the multi-application log-flow tracker
(`main.py` of the `logs_analyzer` repository).

The Python program is shallowly embedded: the SQLAlchemy-backed store
becomes an explicit `Store` record of tables (lists kept in insertion = id
order, matching SQLite row order for `filter_by(...).first()` lookups),
and every ingestion/query routine of `LogFlowTracker` becomes a pure Lean
function over it.  `datetime` values are abstracted as `Nat` instants: the
parsed log timestamp comes with the `ParsedLog`, and `datetime.utcnow`
(used only for `created_at` / `updated_at` audit columns) is passed in as
an explicit `now : Nat` parameter.  Primary keys are modelled by explicit
per-table counters; SQLAlchemy assigns them in flush order, which the
counters reproduce.
-/

namespace Tracker

/-- Row of the `flux_types` table (`class FluxType` in `main.py`). -/
structure FluxType where
  id : Nat
  name : String
  deriving DecidableEq

/-- Row of the `applications` table (`class Application` in `main.py`). -/
structure Application where
  id : Nat
  name : String
  flux_type_id : Nat
  deriving DecidableEq

/-- Row of the `flux_instances` table (`class FluxInstance` in `main.py`).
`created_at` / `updated_at` are the audit instants (column defaults
`datetime.utcnow`, with `onupdate` touching `updated_at`). -/
structure FluxInstance where
  id : Nat
  flux_type_id : Nat
  reference : String
  status : String
  created_at : Nat
  updated_at : Nat
  parent_id : Option Nat
  deriving DecidableEq

/-- Row of the `log_entries` table (`class LogEntry` in `main.py`).
`parsed_data` is the JSON column holding the three extracted field maps
(identifier, payload, reference links), kept structurally instead of as a
serialized string. -/
structure LogEntry where
  id : Nat
  flux_instance_id : Nat
  application_id : Nat
  log_type : String
  timestamp : Nat
  raw_log : String
  parsed_data : List (String × String) × List (String × String) × List (String × String)
  processed_at : Nat
  deriving DecidableEq

/-- Row of the `cross_references` table (`class CrossReference` in `main.py`). -/
structure CrossReference where
  id : Nat
  source_flux_id : Nat
  target_flux_id : Nat
  reference_field : String
  reference_value : String
  created_at : Nat
  deriving DecidableEq

/-- The persistent store: one list per table, in insertion (= primary key)
order, plus the next primary key of each table that the ingestion code
allocates from (`flux_types` and `applications` are only written by
start-up code, so they carry no counter here). -/
structure Store where
  flux_types : List FluxType
  applications : List Application
  flux_instances : List FluxInstance
  log_entries : List LogEntry
  cross_references : List CrossReference
  next_flux_id : Nat
  next_log_id : Nat
  next_cross_id : Nat
  deriving DecidableEq

/-- Result of `parse_log_line` (`@dataclass ParsedLog` in `main.py`).
Python dicts preserve insertion order, so the three field maps are
association lists. -/
structure ParsedLog where
  timestamp : Nat
  log_type : String
  application : String
  flux_type : String
  identifier_fields : List (String × String)
  payload_fields : List (String × String)
  reference_links : List (String × String)
  raw_log : String
  deriving DecidableEq

/-- ASCII whitespace as Python `str.strip` (restricted to the characters
that occur in log lines) removes it. -/
def isSpaceChar (c : Char) : Bool :=
  c == ' ' || c == '\t' || c == '\n' || c == '\r'

/-- Python `str.strip` on the underlying character list. -/
def trimChars (l : List Char) : List Char :=
  ((l.dropWhile isSpaceChar).reverse.dropWhile isSpaceChar).reverse

/-- Python `str.strip`, implemented by structural recursion so that
concrete inputs evaluate inside the kernel. -/
def strTrim (s : String) : String :=
  String.mk (trimChars s.data)

/-- Split a character list on `','` (Python `str.split(',')`: empty
tokens are kept, the empty string yields one empty token). -/
def splitCommaAux : List Char → List Char → List (List Char)
  | [], acc => [acc.reverse]
  | c :: cs, acc =>
    if c == ',' then acc.reverse :: splitCommaAux cs []
    else splitCommaAux cs (c :: acc)

/-- Python `dict.get k`: first binding of `k` in the association list. -/
def dictGet (l : List (String × String)) (k : String) : Option String :=
  (l.find? (fun kv => kv.1 == k)).map (fun kv => kv.2)

/-- Main-reference selection of `_get_or_create_flux_instance`: iterate
`identifier_fields` in declaration order and pick the first non-empty
value. -/
def mainReference (idFields : List (String × String)) : Option String :=
  (idFields.find? (fun kv => kv.2 != "")).map (fun kv => kv.2)

/-- A fresh `FluxInstance` row as the ingestion code creates it:
`status = 'ACTIF'`, audit columns set to the current instant. -/
def freshInstance (id ftid : Nat) (ref : String) (parent : Option Nat) (now : Nat) :
    FluxInstance :=
  { id := id, flux_type_id := ftid, reference := ref, status := "ACTIF",
    created_at := now, updated_at := now, parent_id := parent }

/-- `_get_or_create_flux_instance`: find the instance keyed by
`(flux_type_id, main_reference)`, creating it when absent; `none` models
the `ValueError` raised when no identifier field is non-empty. -/
def getOrCreateFluxInstance (now : Nat) (s : Store) (ftid : Nat) (pl : ParsedLog) :
    Option (FluxInstance × Store) :=
  match mainReference pl.identifier_fields with
  | none => none
  | some r =>
    match s.flux_instances.find? (fun fi => fi.flux_type_id == ftid && fi.reference == r) with
    | some fi => some (fi, s)
    | none =>
      let fi := freshInstance s.next_flux_id ftid r none now
      some (fi, { s with flux_instances := s.flux_instances ++ [fi],
                         next_flux_id := s.next_flux_id + 1 })

/-- Appending the `LogEntry` built in `process_log_line`. -/
def addLogEntry (now : Nat) (s : Store) (fi : FluxInstance) (app : Application)
    (pl : ParsedLog) : Store :=
  { s with
    log_entries := s.log_entries ++
      [{ id := s.next_log_id, flux_instance_id := fi.id, application_id := app.id,
         log_type := pl.log_type, timestamp := pl.timestamp, raw_log := pl.raw_log,
         parsed_data := (pl.identifier_fields, pl.payload_fields, pl.reference_links),
         processed_at := now }],
    next_log_id := s.next_log_id + 1 }

/-- Membership test behind the duplicate check of `_handle_cross_references`
(`session.query(CrossReference).filter_by(...).first()` truthiness). -/
def hasTuple (s : Store) (sid tid : Nat) (f v : String) : Bool :=
  s.cross_references.any (fun cr =>
    cr.source_flux_id == sid && cr.target_flux_id == tid &&
    cr.reference_field == f && cr.reference_value == v)

/-- The `CrossReference` row inserted by `_handle_cross_references`. -/
def newCrossRef (cid srcId tgtId : Nat) (f v : String) (now : Nat) : CrossReference :=
  { id := cid, source_flux_id := srcId, target_flux_id := tgtId,
    reference_field := f, reference_value := v, created_at := now }

/-- One iteration of the loop in `_handle_cross_references`, for a single
`(ref_field, ref_value)` pair: skip empty values, look the target up by
reference alone (any flow type), auto-create it with the source's flow
type when absent, then insert the edge unless it would be a self-loop or
a duplicate tuple. -/
def handleOneCrossRef (now : Nat) (s : Store) (src : FluxInstance) (f v : String) :
    Store :=
  if v == "" then s
  else
    let found := s.flux_instances.find? (fun fi => fi.reference == v)
    let t := match found with
      | some t => t
      | none => freshInstance s.next_flux_id src.flux_type_id v none now
    let s1 := match found with
      | some _ => s
      | none => { s with flux_instances := s.flux_instances ++ [t],
                         next_flux_id := s.next_flux_id + 1 }
    if t.id != src.id && !(hasTuple s1 src.id t.id f v) then
      { s1 with
        cross_references := s1.cross_references ++
          [newCrossRef s1.next_cross_id src.id t.id f v now],
        next_cross_id := s1.next_cross_id + 1 }
    else s1

/-- `_handle_cross_references`: the loop over `parsed_log.reference_links`. -/
def handleCrossReferences (now : Nat) (s : Store) (src : FluxInstance)
    (links : List (String × String)) : Store :=
  links.foldl (fun st kv => handleOneCrossRef now st src kv.1 kv.2) s

/-- Child-id tokenisation of `_handle_sub_flows`:
`[id.strip() for id in enfants_ids.split(',')]` (empty tokens are kept). -/
def splitIds (ids : String) : List String :=
  (splitCommaAux ids.data []).map (fun cs => String.mk (trimChars cs))

/-- Appending one child instance in the `CREATION_ENFANTS` branch of
`_handle_sub_flows` (unconditional `session.add`). -/
def addChild (now : Nat) (st : Store) (src : FluxInstance) (cid : String) : Store :=
  { st with
    flux_instances := st.flux_instances ++
      [freshInstance st.next_flux_id src.flux_type_id cid (some src.id) now],
    next_flux_id := st.next_flux_id + 1 }

/-- Late parent binding in the `TRAITEMENT_ENFANT` branch of
`_handle_sub_flows` (`flux_instance.parent_id = parent_flux.id`; the
`onupdate` hook touches `updated_at`). -/
def bindParent (now : Nat) (s : Store) (srcId pid : Nat) : Store :=
  { s with
    flux_instances := s.flux_instances.map (fun fi =>
      if fi.id == srcId then { fi with parent_id := some pid, updated_at := now }
      else fi) }

/-- `_handle_sub_flows`.  SQLAlchemy primary keys are positive, so the
falsiness test `not flux_instance.parent_id` coincides with
`parent_id is None`, the reading taken here. -/
def handleSubFlows (now : Nat) (s : Store) (src : FluxInstance) (pl : ParsedLog) :
    Store :=
  if pl.log_type == "CREATION_ENFANTS" then
    match dictGet pl.payload_fields "enfants_ids" with
    | none => s
    | some ids =>
      if ids == "" then s
      else (splitIds ids).foldl (fun st cid => addChild now st src cid) s
  else if pl.log_type == "TRAITEMENT_ENFANT" then
    match dictGet pl.payload_fields "parent_ref" with
    | none => s
    | some pr =>
      if pr == "" then s
      else
        match s.flux_instances.find? (fun fi => fi.reference == pr) with
        | none => s
        | some parent =>
          match src.parent_id with
          | some _ => s
          | none => bindParent now s src.id parent.id
  else s

/-- `process_log_line` from the `ParsedLog` on (steps 1 to 5 of the spec):
resolve the flux type and application, obtain the instance, append the
log entry, handle cross references, handle sub-flows.  Any failure gives
back the original store (the `session.rollback()` path) together with
`False`. -/
def processParsedLog (now : Nat) (s : Store) (pl : ParsedLog) : Store × Bool :=
  match s.flux_types.find? (fun ft => ft.name == pl.flux_type) with
  | none => (s, false)
  | some ft =>
    match s.applications.find? (fun a =>
        a.name == pl.application && a.flux_type_id == ft.id) with
    | none => (s, false)
    | some app =>
      match getOrCreateFluxInstance now s ft.id pl with
      | none => (s, false)
      | some (fi, s1) =>
        let s2 := addLogEntry now s1 fi app pl
        let s3 := handleCrossReferences now s2 fi pl.reference_links
        let s4 := handleSubFlows now s3 fi pl
        (s4, true)

/-- Sequential ingestion of a batch (the per-line loop of
`process_log_file`), the ambient clock advancing line by line. -/
def processAll (now : Nat) (s : Store) : List ParsedLog → Store
  | [] => s
  | pl :: rest => processAll (now + 1) (processParsedLog now s pl).1 rest

/-- A compiled pattern of the catalog (`@dataclass LogPattern` in
`main.py`).  `matchLine` embeds `re.search(pattern.regex, line)` followed
by `match.groupdict()` (the regex engine itself stays abstract, as an
opaque matching function), and `parseTimestamp` embeds
`_parse_timestamp_flexible` (failure = the exception that makes
`parse_log_line` skip the pattern). -/
structure LogPattern where
  matchLine : String → Option (List (String × String))
  parseTimestamp : String → Option Nat
  identifier_fields : List String
  payload_fields : List String
  reference_links : List String

/-- The compiled catalog `self.patterns`: flux type → application → stage,
as nested association lists in configuration (insertion) order, exactly
the iteration order of the Python dicts. -/
abbrev Catalog := List (String × List (String × List (String × LogPattern)))

/-- The body of the innermost loop of `parse_log_line`: try one pattern
against the (already stripped) line.  A regex miss, a missing `timestamp`
capture (`KeyError`) or a timestamp-parsing failure all yield `none`,
which makes the caller continue with the next pattern. -/
def tryPattern (line flux app lt : String) (p : LogPattern) : Option ParsedLog :=
  match p.matchLine line with
  | none => none
  | some groups =>
    match dictGet groups "timestamp" with
    | none => none
    | some tsRaw =>
      match p.parseTimestamp tsRaw with
      | none => none
      | some ts =>
        some { timestamp := ts, log_type := lt, application := app, flux_type := flux,
               identifier_fields := p.identifier_fields.map
                 (fun f => (f, (dictGet groups f).getD "")),
               payload_fields := p.payload_fields.map
                 (fun f => (f, (dictGet groups f).getD "")),
               reference_links := p.reference_links.map
                 (fun f => (f, (dictGet groups f).getD "")),
               raw_log := line }

/-- The catalog-view selection of `parse_log_line` for the forced
flux-type / application modes; `none` models the logged error returns. -/
def selectView (patterns : Catalog) (ff fa : Option String) : Option Catalog :=
  match ff, fa with
  | some f, some a =>
    match patterns.find? (fun p => p.1 == f) with
    | none => none
    | some fp =>
      match fp.2.find? (fun p => p.1 == a) with
      | none => none
      | some ap => some [(f, [ap])]
  | some f, none =>
    (patterns.find? (fun p => p.1 == f)).map (fun fp => [fp])
  | none, some a =>
    let sel := patterns.filterMap (fun fp =>
      (fp.2.find? (fun p => p.1 == a)).map (fun ap => (fp.1, [ap])))
    if sel.isEmpty then none else some sel
  | none, none => some patterns

/-- `parse_log_line`: strip the line, reject it when empty, select the
catalog view, and return the first pattern success in the view's own
(configuration) order. -/
def parseLogLine (patterns : Catalog) (line0 : String) (ff fa : Option String) :
    Option ParsedLog :=
  let line := strTrim line0
  if line == "" then none
  else
    match selectView patterns ff fa with
    | none => none
    | some view =>
      view.findSome? (fun fp => fp.2.findSome? (fun ap => ap.2.findSome? (fun sp =>
        tryPattern line fp.1 ap.1 sp.1 sp.2)))

/-- Lexicographic comparison of character lists by code point (the
alphabetical order of the spec wording). -/
def charListLe : List Char → List Char → Bool
  | [], _ => true
  | _ :: _, [] => false
  | a :: as, b :: bs =>
    if a.toNat < b.toNat then true
    else if b.toNat < a.toNat then false
    else charListLe as bs

/-- Alphabetical (code-point lexicographic) order on strings. -/
def strLe (a b : String) : Bool :=
  charListLe a.data b.data

/-- Stable insertion of an association-list entry by key, for the
spec-side alphabetical ordering. -/
def insertByKey {α : Type} (x : String × α) : List (String × α) → List (String × α)
  | [] => [x]
  | y :: ys => if strLe x.1 y.1 then x :: y :: ys else y :: insertByKey x ys

/-- Stable sort of an association list by key (spec-side helper). -/
def sortByKey {α : Type} (l : List (String × α)) : List (String × α) :=
  l.foldr insertByKey []

/-- Modelled from the spec (section 4.2), not from the code: the parser as
the specification words it, iterating "flow types alphabetically, then
applications alphabetically, then stage names alphabetically" over the
selected view.  Kept for comparison with `parseLogLine`. -/
def parseLogLineAlphabetical (patterns : Catalog) (line0 : String)
    (ff fa : Option String) : Option ParsedLog :=
  let line := strTrim line0
  if line == "" then none
  else
    match selectView patterns ff fa with
    | none => none
    | some view =>
      (sortByKey view).findSome? (fun fp =>
        (sortByKey fp.2).findSome? (fun ap =>
          (sortByKey ap.2).findSome? (fun sp =>
            tryPattern line fp.1 ap.1 sp.1 sp.2)))

/-- Stable insertion by timestamp, used to model `order_by(LogEntry.timestamp)`. -/
def insertByTime (x : LogEntry) : List LogEntry → List LogEntry
  | [] => [x]
  | y :: ys => if x.timestamp ≤ y.timestamp then x :: y :: ys else y :: insertByTime x ys

/-- Stable sort by timestamp (insertion sort, structurally recursive). -/
def sortByTime (l : List LogEntry) : List LogEntry :=
  l.foldr insertByTime []

/-- Log entries of one flux instance, sorted ascending by the parsed
timestamp (`order_by(LogEntry.timestamp)`). -/
def logsOf (s : Store) (fiid : Nat) : List LogEntry :=
  sortByTime (s.log_entries.filter (fun le => le.flux_instance_id == fiid))

/-- The `subflow_info` block returned by `get_flux_details`. -/
structure SubflowInfo where
  is_subflow : Bool
  requested_reference : String
  subflow_details : Option FluxInstance
  parent_reference : Option String
  subflow_logs : Option (List LogEntry)
  deriving DecidableEq

/-- The view returned by `get_flux_details`: the primary flux's row, its
logs (sorted by timestamp), outgoing cross references, direct children,
and the sub-flow block. -/
structure FluxDetails where
  flux : FluxInstance
  logs : List LogEntry
  cross_references : List CrossReference
  children : List FluxInstance
  subflow_info : SubflowInfo
  deriving DecidableEq

/-- `get_flux_details`: find by reference (`None` when absent); when the
found instance has a parent that exists, the parent becomes the primary
subject and the sub-flow block carries the child's own row and logs;
when the parent id dangles, fall back to the instance itself with
`is_subflow = False`. -/
def getFluxDetails (s : Store) (reference : String) : Option FluxDetails :=
  match s.flux_instances.find? (fun fi => fi.reference == reference) with
  | none => none
  | some flux =>
    let resolved : FluxInstance × Bool :=
      match flux.parent_id with
      | none => (flux, false)
      | some pid =>
        match s.flux_instances.find? (fun fi => fi.id == pid) with
        | some par => (par, true)
        | none => (flux, false)
    let target := resolved.1
    let is_subflow := resolved.2
    some
      { flux := target,
        logs := logsOf s target.id,
        cross_references := s.cross_references.filter
          (fun cr => cr.source_flux_id == target.id),
        children := s.flux_instances.filter (fun fi => fi.parent_id == some target.id),
        subflow_info :=
          if is_subflow then
            { is_subflow := true, requested_reference := reference,
              subflow_details := some flux, parent_reference := some target.reference,
              subflow_logs := some (logsOf s flux.id) }
          else
            { is_subflow := false, requested_reference := reference,
              subflow_details := none, parent_reference := none,
              subflow_logs := none } }

/-- One entry of the configured `flux_types` mapping, as
`get_incomplete_flows` reads it (`required_steps` / `optional_steps`
default to empty lists). -/
structure FluxTypeConfig where
  name : String
  required_steps : List String
  optional_steps : List String
  deriving DecidableEq

/-- One record of the incomplete-flow report.  The age / last-activity
fields (`age_hours`, `last_activity`, `last_log_type`), being pure
`datetime` arithmetic on the audit columns, are not modelled; the
completion rate is kept exact, in tenths of a percent (`66.7` becomes
`667`). -/
structure IncompleteInfo where
  reference : String
  status : String
  missing_stages : List String
  missing_required_stages : List String
  present_stages : List String
  required_stages : List String
  optional_stages : List String
  children_count : Nat
  completion_rate10 : Nat
  deriving DecidableEq

/-- The stage types present in a flux's log entries
(`set(log.log_type for log in logs)`; only membership is ever used). -/
def logTypesPresent (s : Store) (fiid : Nat) : List String :=
  (s.log_entries.filter (fun le => le.flux_instance_id == fiid)).map
    (fun le => le.log_type)

/-- Stages of `stages` missing from `present` (the two list
comprehensions of `get_incomplete_flows`). -/
def missingOf (stages present : List String) : List String :=
  stages.filter (fun st => !(present.contains st))

/-- The completion rate of `get_incomplete_flows`, in tenths of a percent:
`round((completed / total) * 100, 1) if total > 0 else 100`.  The nearest
integer to `1000 * completed / total` is computed exactly as
`(2 * (1000 * completed) + total) / (2 * total)` in integer division
(rounding half up; Python's float `round` agrees except on exactly
representable ties, where it rounds half to even). -/
def completionRate10 (total completed : Nat) : Nat :=
  if 0 < total then (2 * (1000 * completed) + total) / (2 * total) else 1000

/-- The per-instance record built inside `get_incomplete_flows`. -/
def incompleteInfoFor (req opt : List String) (s : Store) (fi : FluxInstance) :
    IncompleteInfo :=
  let present := logTypesPresent s fi.id
  let missing_required := missingOf req present
  { reference := fi.reference, status := fi.status,
    missing_stages := missingOf (req ++ opt) present,
    missing_required_stages := missing_required,
    present_stages := present.dedup,
    required_stages := req, optional_stages := opt,
    children_count := (s.flux_instances.filter
      (fun x => x.parent_id == some fi.id)).length,
    completion_rate10 := completionRate10 req.length
      (req.length - missing_required.length) }

/-- `get_incomplete_flows`: per configured flux type with a non-empty
`required_steps`, the top-level instances of that type missing at least
one required stage.  The optional `max_age_hours` cutoff (wall-clock
`datetime` arithmetic) and the final sort by age are not modelled; the
reported set of records is unaffected. -/
def getIncompleteFlows (cfg : List FluxTypeConfig) (s : Store) :
    List (String × List IncompleteInfo) :=
  cfg.filterMap (fun fc =>
    if fc.required_steps.isEmpty then none
    else
      (s.flux_types.find? (fun ft => ft.name == fc.name)).bind (fun ft =>
        let instances := s.flux_instances.filter (fun fi =>
          fi.flux_type_id == ft.id && fi.parent_id == none)
        let incompletes := (instances.filter (fun fi =>
          !(missingOf fc.required_steps (logTypesPresent s fi.id)).isEmpty)).map
          (incompleteInfoFor fc.required_steps fc.optional_steps s)
        if incompletes.isEmpty then none else some (fc.name, incompletes)))

/-! Helper lemmas about list searching used throughout the development. -/

/-- A successful `find?` is stable under appending on the right. -/
theorem find?_append_some {α : Type} {p : α → Bool} {l t : List α} {x : α}
    (h : l.find? p = some x) : (l ++ t).find? p = some x := by
  rw [List.find?_append, h]; rfl

/-- When `find?` fails on the front list, the search continues behind. -/
theorem find?_append_none {α : Type} {p : α → Bool} {l t : List α}
    (h : l.find? p = none) : (l ++ t).find? p = t.find? p := by
  rw [List.find?_append, h]; rfl

/-- `find?` commutes with a map that leaves the predicate unchanged. -/
theorem find?_map_invariant {α : Type} {p : α → Bool} (g : α → α)
    (hg : ∀ a, p (g a) = p a) : ∀ l : List α, (l.map g).find? p = (l.find? p).map g := by
  intro l
  induction l with
  | nil => rfl
  | cons a l ih =>
    by_cases h : p a = true
    · simp [List.find?_cons, hg a, h]
    · have h' : p a = false := by revert h; cases p a <;> simp
      simp [List.find?_cons, hg a, h', ih]

/-- The failure conditions of `process_log_line` (step 1 and step 2): the
flux type resolves, the application resolves within it, and a non-empty
main reference exists. -/
def canResolve (s : Store) (pl : ParsedLog) : Bool :=
  match s.flux_types.find? (fun ft => ft.name == pl.flux_type) with
  | none => false
  | some ft =>
    match s.applications.find? (fun a =>
        a.name == pl.application && a.flux_type_id == ft.id) with
    | none => false
    | some _ => (mainReference pl.identifier_fields).isSome

/-- C4: processing a ParsedLog is atomic: whenever the outcome is a
failure the returned store is exactly the input store (the rollback of
`process_log_line` leaves no partial state), and the outcome is a success
exactly when the flux type, the application and a non-empty main
reference all resolve (the only failure sources of steps 1 and 2; steps
3 to 5 cannot fail). -/
theorem c4_atomic_processing (now : Nat) (s : Store) (pl : ParsedLog) :
    ((processParsedLog now s pl).2 = false → (processParsedLog now s pl).1 = s) ∧
    ((processParsedLog now s pl).2 = true ↔ canResolve s pl = true) := by
  cases hft : s.flux_types.find? (fun ft => ft.name == pl.flux_type) with
  | none => simp [processParsedLog, canResolve, hft]
  | some ft =>
    cases happ : s.applications.find? (fun a =>
        a.name == pl.application && a.flux_type_id == ft.id) with
    | none => simp [processParsedLog, canResolve, hft, happ]
    | some app =>
      cases hmr : mainReference pl.identifier_fields with
      | none => simp [processParsedLog, canResolve, getOrCreateFluxInstance, hft, happ, hmr]
      | some r =>
        cases hfi : s.flux_instances.find? (fun fi =>
            fi.flux_type_id == ft.id && fi.reference == r) <;>
          simp [processParsedLog, canResolve, getOrCreateFluxInstance, hft, happ, hmr, hfi]

/-- C5: one step of cross-reference handling, for a non-empty
`(ref_field, ref_value)` pair.  The target is looked up by reference
alone (across all flow types); when absent it is created with the
source's flow type and status `ACTIF`; the edge
`(source, target, ref_field, ref_value)` is inserted exactly when the
target differs from the source and no identical tuple exists; and every
inserted edge has `target ≠ source`, so a value equal to the source's own
reference never creates a self-edge. -/
theorem c5_cross_reference_step (now : Nat) (s : Store) (src : FluxInstance)
    (f v : String) (hv : v ≠ "") :
    (∀ t, s.flux_instances.find? (fun fi => fi.reference == v) = some t →
      (handleOneCrossRef now s src f v).flux_instances = s.flux_instances ∧
      (if t.id ≠ src.id ∧ hasTuple s src.id t.id f v = false then
        (handleOneCrossRef now s src f v).cross_references =
          s.cross_references ++ [newCrossRef s.next_cross_id src.id t.id f v now]
      else (handleOneCrossRef now s src f v).cross_references = s.cross_references)) ∧
    (s.flux_instances.find? (fun fi => fi.reference == v) = none →
      (handleOneCrossRef now s src f v).flux_instances =
        s.flux_instances ++ [freshInstance s.next_flux_id src.flux_type_id v none now] ∧
      (freshInstance s.next_flux_id src.flux_type_id v none now).status = "ACTIF" ∧
      (freshInstance s.next_flux_id src.flux_type_id v none now).reference = v ∧
      (if s.next_flux_id ≠ src.id ∧ hasTuple s src.id s.next_flux_id f v = false then
        (handleOneCrossRef now s src f v).cross_references =
          s.cross_references ++ [newCrossRef s.next_cross_id src.id s.next_flux_id f v now]
      else (handleOneCrossRef now s src f v).cross_references = s.cross_references)) ∧
    (∀ e ∈ (handleOneCrossRef now s src f v).cross_references,
      e ∉ s.cross_references →
        e.source_flux_id = src.id ∧ e.target_flux_id ≠ e.source_flux_id) := by
  have hv' : (v == "") = false := by simpa using hv
  refine ⟨?_, ?_, ?_⟩
  · intro t ht
    by_cases hc : t.id ≠ src.id ∧ hasTuple s src.id t.id f v = false
    · rw [if_pos hc]
      have hb : (t.id != src.id && !(hasTuple s src.id t.id f v)) = true := by
        simp [hc.1, hc.2]
      constructor <;> simp [handleOneCrossRef, hv', ht, hb]
    · rw [if_neg hc]
      have hb : (t.id != src.id && !(hasTuple s src.id t.id f v)) = false := by
        rcases not_and_or.mp hc with h | h
        · simp [not_not.mp h]
        · have : hasTuple s src.id t.id f v = true := by
            revert h; cases hasTuple s src.id t.id f v <;> simp
          simp [this]
      constructor <;> simp [handleOneCrossRef, hv', ht, hb]
  · intro ht
    by_cases hc : s.next_flux_id ≠ src.id ∧ hasTuple s src.id s.next_flux_id f v = false
    · rw [if_pos hc]
      have hc2 : s.cross_references.any (fun cr =>
          cr.source_flux_id == src.id && cr.target_flux_id == s.next_flux_id &&
          cr.reference_field == f && cr.reference_value == v) = false := hc.2
      refine ⟨?_, rfl, rfl, ?_⟩ <;>
        simp [handleOneCrossRef, hv', ht, hasTuple, freshInstance, newCrossRef, hc.1, hc2]
    · rw [if_neg hc]
      rcases not_and_or.mp hc with h | h
      · have h' : s.next_flux_id = src.id := not_not.mp h
        refine ⟨?_, rfl, rfl, ?_⟩ <;>
          simp [handleOneCrossRef, hv', ht, hasTuple, freshInstance, h']
      · have h' : hasTuple s src.id s.next_flux_id f v = true := by
          revert h; cases hasTuple s src.id s.next_flux_id f v <;> simp
        have hc2 : s.cross_references.any (fun cr =>
            cr.source_flux_id == src.id && cr.target_flux_id == s.next_flux_id &&
            cr.reference_field == f && cr.reference_value == v) = true := h'
        refine ⟨?_, rfl, rfl, ?_⟩ <;>
          simp [handleOneCrossRef, hv', ht, hasTuple, freshInstance, hc2]
  · intro e he hnot
    cases ht : s.flux_instances.find? (fun fi => fi.reference == v) with
    | some t =>
      by_cases hb : (t.id != src.id && !(hasTuple s src.id t.id f v)) = true
      · have hcr : (handleOneCrossRef now s src f v).cross_references =
            s.cross_references ++ [newCrossRef s.next_cross_id src.id t.id f v now] := by
          simp [handleOneCrossRef, hv', ht, hb]
        rw [hcr] at he
        rcases List.mem_append.mp he with h | h
        · exact absurd h hnot
        · rw [List.mem_singleton.mp h]
          have hb1 : (t.id != src.id) = true ∧ (!hasTuple s src.id t.id f v) = true := by
            simpa using hb
          have hne : t.id ≠ src.id := by simpa using hb1.1
          exact ⟨rfl, fun hk => hne hk⟩
      · have hb' : (t.id != src.id && !(hasTuple s src.id t.id f v)) = false := by
          revert hb; cases t.id != src.id && !(hasTuple s src.id t.id f v) <;> simp
        have hcr : (handleOneCrossRef now s src f v).cross_references =
            s.cross_references := by
          simp [handleOneCrossRef, hv', ht, hb']
        rw [hcr] at he
        exact absurd he hnot
    | none =>
      by_cases hb : s.next_flux_id ≠ src.id ∧ hasTuple s src.id s.next_flux_id f v = false
      · have hb2 : s.cross_references.any (fun cr =>
            cr.source_flux_id == src.id && cr.target_flux_id == s.next_flux_id &&
            cr.reference_field == f && cr.reference_value == v) = false := hb.2
        have hcr : (handleOneCrossRef now s src f v).cross_references =
            s.cross_references ++
              [newCrossRef s.next_cross_id src.id s.next_flux_id f v now] := by
          simp [handleOneCrossRef, hv', ht, hasTuple, freshInstance, hb.1, hb2]
        rw [hcr] at he
        rcases List.mem_append.mp he with h | h
        · exact absurd h hnot
        · rw [List.mem_singleton.mp h]
          exact ⟨rfl, fun hk => hb.1 hk⟩
      · rcases not_and_or.mp hb with h | h
        · have h' : s.next_flux_id = src.id := not_not.mp h
          have hcr : (handleOneCrossRef now s src f v).cross_references =
              s.cross_references := by
            simp [handleOneCrossRef, hv', ht, hasTuple, freshInstance, h']
          rw [hcr] at he
          exact absurd he hnot
        · have h' : hasTuple s src.id s.next_flux_id f v = true := by
            revert h; cases hasTuple s src.id s.next_flux_id f v <;> simp
          have hb2 : s.cross_references.any (fun cr =>
              cr.source_flux_id == src.id && cr.target_flux_id == s.next_flux_id &&
              cr.reference_field == f && cr.reference_value == v) = true := h'
          have hcr : (handleOneCrossRef now s src f v).cross_references =
              s.cross_references := by
            simp [handleOneCrossRef, hv', ht, hasTuple, freshInstance, hb2]
          rw [hcr] at he
          exact absurd he hnot

/-- A small concrete store with one flux type and one application,
freshly initialised (used by several witnesses below). -/
def storeW : Store :=
  { flux_types := [⟨1, "CMD"⟩], applications := [⟨1, "app", 1⟩],
    flux_instances := [], log_entries := [], cross_references := [],
    next_flux_id := 1, next_log_id := 1, next_cross_id := 1 }

/-- A parsed line whose only identifier field is empty (no main
reference). -/
def plEmptyId : ParsedLog :=
  { timestamp := 7, log_type := "S", application := "app", flux_type := "CMD",
    identifier_fields := [("cmd", "")], payload_fields := [],
    reference_links := [], raw_log := "r" }

/-- The source instance used by the cross-reference witness. -/
def src5w : FluxInstance := ⟨1, 1, "X", "ACTIF", 0, 0, none⟩

/-- A store holding only `src5w` (no instance has reference `R`). -/
def s5w : Store :=
  { flux_types := [⟨1, "CMD"⟩], applications := [⟨1, "app", 1⟩],
    flux_instances := [src5w], log_entries := [], cross_references := [],
    next_flux_id := 2, next_log_id := 1, next_cross_id := 1 }

/-- Witness for `c5_cross_reference_step`: the auto-creation branch on a
concrete store without the target `R`. -/
theorem c5_cross_reference_step_witness :
    (handleOneCrossRef 0 s5w src5w "ordre" "R").flux_instances =
      s5w.flux_instances ++
        [freshInstance s5w.next_flux_id src5w.flux_type_id "R" none 0] ∧
    (freshInstance s5w.next_flux_id src5w.flux_type_id "R" none 0).status = "ACTIF" ∧
    (freshInstance s5w.next_flux_id src5w.flux_type_id "R" none 0).reference = "R" ∧
    (if s5w.next_flux_id ≠ src5w.id ∧ hasTuple s5w src5w.id s5w.next_flux_id "ordre" "R" = false then
      (handleOneCrossRef 0 s5w src5w "ordre" "R").cross_references =
        s5w.cross_references ++
          [newCrossRef s5w.next_cross_id src5w.id s5w.next_flux_id "ordre" "R" 0]
    else
      (handleOneCrossRef 0 s5w src5w "ordre" "R").cross_references =
        s5w.cross_references) :=
  (c5_cross_reference_step 0 s5w src5w "ordre" "R" (by decide)).2.1 (by decide)

/-- The list of child rows the `CREATION_ENFANTS` branch appends, starting
from a given next primary key. -/
def childrenFrom (now : Nat) (src : FluxInstance) : Nat → List String → List FluxInstance
  | _, [] => []
  | startId, cid :: rest =>
    freshInstance startId src.flux_type_id cid (some src.id) now ::
      childrenFrom now src (startId + 1) rest

/-- Unfolding of the child-creation fold: it appends exactly
`childrenFrom` and touches no other table. -/
theorem foldl_addChild_spec (now : Nat) (src : FluxInstance) :
    ∀ (toks : List String) (st : Store),
      (toks.foldl (fun st cid => addChild now st src cid) st).flux_instances =
        st.flux_instances ++ childrenFrom now src st.next_flux_id toks ∧
      (toks.foldl (fun st cid => addChild now st src cid) st).log_entries =
        st.log_entries ∧
      (toks.foldl (fun st cid => addChild now st src cid) st).cross_references =
        st.cross_references ∧
      (toks.foldl (fun st cid => addChild now st src cid) st).flux_types =
        st.flux_types ∧
      (toks.foldl (fun st cid => addChild now st src cid) st).applications =
        st.applications := by
  intro toks
  induction toks with
  | nil => intro st; simp [childrenFrom]
  | cons c rest ih =>
    intro st
    have h := ih (addChild now st src c)
    simp only [List.foldl_cons]
    refine ⟨?_, ?_, ?_, ?_, ?_⟩
    · rw [h.1]; simp [addChild, childrenFrom]
    · rw [h.2.1]; simp [addChild]
    · rw [h.2.2.1]; simp [addChild]
    · rw [h.2.2.2.1]; simp [addChild]
    · rw [h.2.2.2.2]; simp [addChild]

/-- The references of the created children are exactly the tokens, in
order. -/
theorem childrenFrom_references (now : Nat) (src : FluxInstance) :
    ∀ (startId : Nat) (toks : List String),
      (childrenFrom now src startId toks).map (fun c => c.reference) = toks := by
  intro startId toks
  induction toks generalizing startId with
  | nil => rfl
  | cons c rest ih => simp [childrenFrom, freshInstance, ih]

/-- Every created child carries the source's flow type, status `ACTIF`
and `parent_id = source.id`. -/
theorem childrenFrom_fields (now : Nat) (src : FluxInstance) :
    ∀ (startId : Nat) (toks : List String),
      ∀ c ∈ childrenFrom now src startId toks,
        c.flux_type_id = src.flux_type_id ∧ c.status = "ACTIF" ∧
        c.parent_id = some src.id := by
  intro startId toks
  induction toks generalizing startId with
  | nil => intro c hc; cases hc
  | cons t rest ih =>
    intro c hc
    rcases List.mem_cons.mp hc with h | h
    · rw [h]; exact ⟨rfl, rfl, rfl⟩
    · exact ih _ c h

/-- C6 (amended): on a `CREATION_ENFANTS` line with a non-empty
`enfants_ids` payload, the ids are split on commas and trimmed (empty
tokens are kept, not dropped), and one child per token is appended
unconditionally, with the source's flow type, status `ACTIF` and
`parent_id = source.id`; pre-existing instances are left in place
unaltered (the new rows are appended after them), but an existing
instance with the same reference does not prevent the creation. -/
theorem c6_child_creation (now : Nat) (s : Store) (src : FluxInstance)
    (pl : ParsedLog) (ids : String)
    (h1 : pl.log_type = "CREATION_ENFANTS")
    (h2 : dictGet pl.payload_fields "enfants_ids" = some ids)
    (h3 : ids ≠ "") :
    (handleSubFlows now s src pl).flux_instances =
      s.flux_instances ++ childrenFrom now src s.next_flux_id (splitIds ids) ∧
    (childrenFrom now src s.next_flux_id (splitIds ids)).map (fun c => c.reference) =
      splitIds ids ∧
    (∀ c ∈ childrenFrom now src s.next_flux_id (splitIds ids),
      c.flux_type_id = src.flux_type_id ∧ c.status = "ACTIF" ∧
      c.parent_id = some src.id) ∧
    (handleSubFlows now s src pl).log_entries = s.log_entries ∧
    (handleSubFlows now s src pl).cross_references = s.cross_references := by
  have h1' : (pl.log_type == "CREATION_ENFANTS") = true := by simp [h1]
  have h3' : (ids == "") = false := by simpa using h3
  have hs : handleSubFlows now s src pl =
      (splitIds ids).foldl (fun st cid => addChild now st src cid) s := by
    simp [handleSubFlows, h1', h2, h3']
  rw [hs]
  have h := foldl_addChild_spec now src (splitIds ids) s
  exact ⟨h.1, childrenFrom_references now src s.next_flux_id (splitIds ids),
    childrenFrom_fields now src s.next_flux_id (splitIds ids), h.2.1, h.2.2.1⟩

/-- The source instance used by the child-creation witness. -/
def src6w : FluxInstance := ⟨1, 1, "P", "ACTIF", 0, 0, none⟩

/-- A store holding only `src6w`. -/
def s6w : Store :=
  { flux_types := [⟨1, "CMD"⟩], applications := [⟨1, "app", 1⟩],
    flux_instances := [src6w], log_entries := [], cross_references := [],
    next_flux_id := 2, next_log_id := 1, next_cross_id := 1 }

/-- A `CREATION_ENFANTS` line carrying two child ids. -/
def pl6w : ParsedLog :=
  { timestamp := 3, log_type := "CREATION_ENFANTS", application := "app",
    flux_type := "CMD", identifier_fields := [("cmd", "P")],
    payload_fields := [("enfants_ids", "A, B")], reference_links := [],
    raw_log := "r6" }

/-- Witness for `c6_child_creation` on a concrete two-child line. -/
theorem c6_child_creation_witness :
    (handleSubFlows 0 s6w src6w pl6w).flux_instances =
      s6w.flux_instances ++ childrenFrom 0 src6w s6w.next_flux_id (splitIds "A, B") ∧
    (childrenFrom 0 src6w s6w.next_flux_id (splitIds "A, B")).map (fun c => c.reference) =
      splitIds "A, B" ∧
    (∀ c ∈ childrenFrom 0 src6w s6w.next_flux_id (splitIds "A, B"),
      c.flux_type_id = src6w.flux_type_id ∧ c.status = "ACTIF" ∧
      c.parent_id = some src6w.id) ∧
    (handleSubFlows 0 s6w src6w pl6w).log_entries = s6w.log_entries ∧
    (handleSubFlows 0 s6w src6w pl6w).cross_references = s6w.cross_references :=
  c6_child_creation 0 s6w src6w pl6w "A, B" rfl (by decide) (by decide)

/-- A first line creating the instance `A` of flow type `CMD`. -/
def pl6a : ParsedLog :=
  { timestamp := 1, log_type := "COMMANDE_RECU", application := "app",
    flux_type := "CMD", identifier_fields := [("cmd", "A")],
    payload_fields := [], reference_links := [], raw_log := "rA" }

/-- A `CREATION_ENFANTS` line on flow `P` whose `enfants_ids` contains the
already-existing id `A` and an empty token. -/
def pl6ce : ParsedLog :=
  { timestamp := 2, log_type := "CREATION_ENFANTS", application := "app",
    flux_type := "CMD", identifier_fields := [("cmd", "P")],
    payload_fields := [("enfants_ids", "A, ,B")], reference_links := [],
    raw_log := "rCE" }

/-- Counterexample to C6 as stated: after ingesting a line that creates
instance `A` and then a `CREATION_ENFANTS` line with
`enfants_ids = "A, ,B"`, the store holds the references
`[A, P, A, "", B]`: the empty token was not dropped (a child with empty
reference exists) and the creation of `A` was not skipped (a duplicate
`(flux_type, "A")` child was created). -/
theorem c6_counterexample :
    (processAll 0 storeW [pl6a, pl6ce]).flux_instances.map (fun fi => fi.reference) =
      ["A", "P", "A", "", "B"] := by decide

/-- C8: `get_flux_details` returns an empty (not-found) result exactly
when no instance carries the reference; when the found instance has no
parent it is itself the primary subject (with its sorted logs, outgoing
cross references and direct children); when it has a parent that
resolves, the parent becomes the primary subject and the `subflow_info`
block carries the child's own row (id, status, audit instants) and the
child's own logs. -/
theorem c8_flux_details (s : Store) (ref : String) :
    (getFluxDetails s ref = none ↔
      s.flux_instances.find? (fun fi => fi.reference == ref) = none) ∧
    (∀ flux, s.flux_instances.find? (fun fi => fi.reference == ref) = some flux →
      (flux.parent_id = none →
        getFluxDetails s ref = some
          { flux := flux, logs := logsOf s flux.id,
            cross_references := s.cross_references.filter
              (fun cr => cr.source_flux_id == flux.id),
            children := s.flux_instances.filter
              (fun fi => fi.parent_id == some flux.id),
            subflow_info :=
              { is_subflow := false, requested_reference := ref,
                subflow_details := none, parent_reference := none,
                subflow_logs := none } }) ∧
      (∀ pid par, flux.parent_id = some pid →
        s.flux_instances.find? (fun fi => fi.id == pid) = some par →
        getFluxDetails s ref = some
          { flux := par, logs := logsOf s par.id,
            cross_references := s.cross_references.filter
              (fun cr => cr.source_flux_id == par.id),
            children := s.flux_instances.filter
              (fun fi => fi.parent_id == some par.id),
            subflow_info :=
              { is_subflow := true, requested_reference := ref,
                subflow_details := some flux, parent_reference := some par.reference,
                subflow_logs := some (logsOf s flux.id) } })) := by
  cases hfind : s.flux_instances.find? (fun fi => fi.reference == ref) with
  | none =>
    constructor
    · simp [getFluxDetails, hfind]
    · intro flux hf; cases hf
  | some flux0 =>
    constructor
    · simp [getFluxDetails, hfind]
    · intro flux hf
      have hfl : flux = flux0 := by
        injection hf with h
        exact h.symm
      subst hfl
      constructor
      · intro hp
        simp [getFluxDetails, hfind, hp]
      · intro pid par hp hpar
        simp [getFluxDetails, hfind, hp, hpar]

/-- A store with a parent `P`, a child `C` of `P`, and an instance `D`
whose `parent_id` dangles (no instance has id 99). -/
def s8w : Store :=
  { flux_types := [⟨1, "T"⟩], applications := [⟨1, "app", 1⟩],
    flux_instances := [⟨1, 1, "P", "ACTIF", 0, 0, none⟩,
                       ⟨2, 1, "C", "ACTIF", 0, 1, some 1⟩,
                       ⟨3, 1, "D", "ACTIF", 0, 1, some 99⟩],
    log_entries := [], cross_references := [],
    next_flux_id := 4, next_log_id := 1, next_cross_id := 1 }

/-- Witness for `c8_flux_details`: querying the sub-flow `C` of `s8w`
returns the parent `P` as primary subject with the child's block. -/
theorem c8_flux_details_witness :
    getFluxDetails s8w "C" = some
      { flux := ⟨1, 1, "P", "ACTIF", 0, 0, none⟩,
        logs := logsOf s8w 1,
        cross_references := s8w.cross_references.filter
          (fun cr => cr.source_flux_id == 1),
        children := s8w.flux_instances.filter
          (fun fi => fi.parent_id == some 1),
        subflow_info :=
          { is_subflow := true, requested_reference := "C",
            subflow_details := some ⟨2, 1, "C", "ACTIF", 0, 1, some 1⟩,
            parent_reference := some "P",
            subflow_logs := some (logsOf s8w 2) } } :=
  ((c8_flux_details s8w "C").2 ⟨2, 1, "C", "ACTIF", 0, 1, some 1⟩ (by decide)).2
    1 ⟨1, 1, "P", "ACTIF", 0, 0, none⟩ rfl (by decide)

/-- C10: when the found instance's `parent_id` matches no existing
instance, `get_flux_details` falls back to the instance itself as the
primary subject with `subflow_info.is_subflow = false`, instead of
failing or returning not-found. -/
theorem c10_dangling_parent_fallback (s : Store) (ref : String)
    (flux : FluxInstance) (pid : Nat)
    (h1 : s.flux_instances.find? (fun fi => fi.reference == ref) = some flux)
    (h2 : flux.parent_id = some pid)
    (h3 : s.flux_instances.find? (fun fi => fi.id == pid) = none) :
    getFluxDetails s ref = some
      { flux := flux, logs := logsOf s flux.id,
        cross_references := s.cross_references.filter
          (fun cr => cr.source_flux_id == flux.id),
        children := s.flux_instances.filter
          (fun fi => fi.parent_id == some flux.id),
        subflow_info :=
          { is_subflow := false, requested_reference := ref,
            subflow_details := none, parent_reference := none,
            subflow_logs := none } } := by
  simp [getFluxDetails, h1, h2, h3]

/-- Witness for `c10_dangling_parent_fallback`: the instance `D` of `s8w`
has the dangling parent id 99 and is returned as its own primary
subject. -/
theorem c10_dangling_parent_fallback_witness :
    getFluxDetails s8w "D" = some
      { flux := ⟨3, 1, "D", "ACTIF", 0, 1, some 99⟩,
        logs := logsOf s8w 3,
        cross_references := s8w.cross_references.filter
          (fun cr => cr.source_flux_id == 3),
        children := s8w.flux_instances.filter
          (fun fi => fi.parent_id == some 3),
        subflow_info :=
          { is_subflow := false, requested_reference := "D",
            subflow_details := none, parent_reference := none,
            subflow_logs := none } } :=
  c10_dangling_parent_fallback s8w "D" ⟨3, 1, "D", "ACTIF", 0, 1, some 99⟩ 99
    (by decide) rfl (by decide)

/-- Flattening of the applications of one flux type into
`(flux, app, stage, pattern)` tuples, in catalog order. -/
def flattenApps (fn : String) :
    List (String × List (String × LogPattern)) →
      List (String × String × String × LogPattern)
  | [] => []
  | (an, pats) :: rest =>
    pats.map (fun sp => (fn, an, sp.1, sp.2)) ++ flattenApps fn rest

/-- Flattening of a catalog view into `(flux, app, stage, pattern)`
tuples, in catalog order. -/
def flattenCatalog : Catalog → List (String × String × String × LogPattern)
  | [] => []
  | (fn, apps) :: rest => flattenApps fn apps ++ flattenCatalog rest

/-- The nested per-application search is the flat first-match search. -/
theorem flattenApps_findSome? (line fn : String) :
    ∀ apps : List (String × List (String × LogPattern)),
      (flattenApps fn apps).findSome?
          (fun e => tryPattern line e.1 e.2.1 e.2.2.1 e.2.2.2) =
        apps.findSome? (fun ap => ap.2.findSome? (fun sp =>
          tryPattern line fn ap.1 sp.1 sp.2)) := by
  intro apps
  induction apps with
  | nil => rfl
  | cons ap rest ih =>
    cases ap with
    | mk an pats =>
      simp only [flattenApps, List.findSome?_append, ih, List.findSome?_cons]
      rw [List.findSome?_map]
      have hcomp :
          List.findSome?
              ((fun e : String × String × String × LogPattern =>
                tryPattern line e.1 e.2.1 e.2.2.1 e.2.2.2) ∘
                fun sp : String × LogPattern => (fn, an, sp.1, sp.2)) pats =
            List.findSome?
              (fun sp : String × LogPattern => tryPattern line fn an sp.1 sp.2) pats := rfl
      rw [hcomp]
      cases hx : List.findSome?
          (fun sp : String × LogPattern => tryPattern line fn an sp.1 sp.2) pats <;>
        simp [hx]

/-- The nested catalog search is the flat first-match search. -/
theorem flattenCatalog_findSome? (line : String) :
    ∀ view : Catalog,
      (flattenCatalog view).findSome?
          (fun e => tryPattern line e.1 e.2.1 e.2.2.1 e.2.2.2) =
        view.findSome? (fun fp => fp.2.findSome? (fun ap =>
          ap.2.findSome? (fun sp => tryPattern line fp.1 ap.1 sp.1 sp.2))) := by
  intro view
  induction view with
  | nil => rfl
  | cons fp rest ih =>
    cases fp with
    | mk fn apps =>
      simp only [flattenCatalog, List.findSome?_append, ih, List.findSome?_cons]
      rw [flattenApps_findSome? line fn apps]
      cases hx : apps.findSome? (fun ap => ap.2.findSome? (fun sp =>
          tryPattern line fn ap.1 sp.1 sp.2)) <;> simp [hx]

/-- C3 (amended): the parser strips the line, rejects it when the result
is empty, and otherwise returns the first pattern success over the
selected catalog view flattened in the catalog's own (configuration /
insertion) order: flow types, applications and stage names in the order
the configuration declares them, not alphabetically. -/
theorem c3_parser_first_match (patterns : Catalog) (line0 : String)
    (ff fa : Option String) :
    parseLogLine patterns line0 ff fa =
      if strTrim line0 == "" then none
      else
        (selectView patterns ff fa).elim none (fun view =>
          (flattenCatalog view).findSome? (fun e =>
            tryPattern (strTrim line0) e.1 e.2.1 e.2.2.1 e.2.2.2)) := by
  by_cases h : (strTrim line0 == "") = true
  · simp [parseLogLine, h]
  · have h' : (strTrim line0 == "") = false := by
      revert h; cases strTrim line0 == "" <;> simp
    cases hsel : selectView patterns ff fa with
    | none => simp [parseLogLine, h', hsel]
    | some view =>
      simp only [parseLogLine, h', hsel, Bool.false_eq_true, if_false, Option.elim]
      rw [flattenCatalog_findSome?]

/-- A pattern that matches every line, with a parseable timestamp. -/
def patAll : LogPattern :=
  { matchLine := fun _ => some [("timestamp", "z")],
    parseTimestamp := fun _ => some 0,
    identifier_fields := ["id"], payload_fields := [], reference_links := [] }

/-- A catalog whose configuration order (`B` before `A`) is not
alphabetical, both flux types carrying an always-matching pattern. -/
def catBA : Catalog :=
  [("B", [("app", [("S", patAll)])]), ("A", [("app", [("S", patAll)])])]

/-- Counterexample to C3 as stated: on the catalog `catBA` the code
returns the first match in configuration order (flux type `B`), while
iterating flow types alphabetically (the spec's wording, embodied by
`parseLogLineAlphabetical`) would return flux type `A`; the two parsers
disagree on this input. -/
theorem c3_counterexample :
    (parseLogLine catBA " x " none none).map (fun p => p.flux_type) = some "B" ∧
    (parseLogLineAlphabetical catBA " x " none none).map (fun p => p.flux_type) =
      some "A" ∧
    parseLogLine catBA " x " none none ≠
      parseLogLineAlphabetical catBA " x " none none :=
  ⟨by decide, by decide, by decide⟩

/-- The uniqueness invariant of the spec: at most one `FluxInstance` per
`(flux_type_id, reference)` pair. -/
def UniqueKeys (l : List FluxInstance) : Prop :=
  l.Pairwise (fun a b => ¬(a.flux_type_id = b.flux_type_id ∧ a.reference = b.reference))

instance : DecidablePred UniqueKeys := fun l =>
  List.instDecidablePairwise l

/-- Appending a row whose key is absent preserves the invariant. -/
theorem uniqueKeys_append (l : List FluxInstance) (fi : FluxInstance)
    (h : UniqueKeys l)
    (habs : ∀ x ∈ l, ¬(x.flux_type_id = fi.flux_type_id ∧ x.reference = fi.reference)) :
    UniqueKeys (l ++ [fi]) := by
  rw [UniqueKeys, List.pairwise_append]
  refine ⟨h, by simp, ?_⟩
  intro a ha b hb
  rw [List.mem_singleton] at hb
  subst hb
  exact habs a ha

/-- A map that does not change keys preserves the invariant. -/
theorem uniqueKeys_map (l : List FluxInstance) (g : FluxInstance → FluxInstance)
    (hg : ∀ a, (g a).flux_type_id = a.flux_type_id ∧ (g a).reference = a.reference)
    (h : UniqueKeys l) : UniqueKeys (l.map g) := by
  refine List.Pairwise.map g ?_ h
  intro a b hab hc
  exact hab ⟨by rw [← (hg a).1, ← (hg b).1]; exact hc.1,
             by rw [← (hg a).2, ← (hg b).2]; exact hc.2⟩

/-- Structural effect of one cross-reference step on the store: the
catalog tables and log entries are untouched, cross references only
grow, and the instance table either stays or receives exactly the
auto-created target (whose reference was absent). -/
theorem handleOneCrossRef_shape (now : Nat) (s : Store) (src : FluxInstance)
    (f v : String) :
    (handleOneCrossRef now s src f v).flux_types = s.flux_types ∧
    (handleOneCrossRef now s src f v).applications = s.applications ∧
    (handleOneCrossRef now s src f v).log_entries = s.log_entries ∧
    (∃ tl, (handleOneCrossRef now s src f v).cross_references =
      s.cross_references ++ tl) ∧
    ((((v == "") = true ∨ s.flux_instances.find? (fun fi => fi.reference == v) ≠ none) ∧
       (handleOneCrossRef now s src f v).flux_instances = s.flux_instances) ∨
      ((v == "") = false ∧
       s.flux_instances.find? (fun fi => fi.reference == v) = none ∧
       (handleOneCrossRef now s src f v).flux_instances =
         s.flux_instances ++
           [freshInstance s.next_flux_id src.flux_type_id v none now])) := by
  by_cases hv : (v == "") = true
  · refine ⟨?_, ?_, ?_, ⟨[], ?_⟩, Or.inl ⟨Or.inl hv, ?_⟩⟩ <;> simp [handleOneCrossRef, hv]
  · have hv' : (v == "") = false := by revert hv; cases v == "" <;> simp
    cases hf : s.flux_instances.find? (fun fi => fi.reference == v) with
    | some t =>
      by_cases hb : (t.id != src.id && !(hasTuple s src.id t.id f v)) = true
      · refine ⟨?_, ?_, ?_, ⟨[newCrossRef s.next_cross_id src.id t.id f v now], ?_⟩,
          Or.inl ⟨Or.inr (fun hk => Option.noConfusion hk), ?_⟩⟩ <;>
          simp [handleOneCrossRef, hv', hf, hb]
      · have hb' : (t.id != src.id && !(hasTuple s src.id t.id f v)) = false := by
          revert hb; cases t.id != src.id && !(hasTuple s src.id t.id f v) <;> simp
        refine ⟨?_, ?_, ?_, ⟨[], ?_⟩,
          Or.inl ⟨Or.inr (fun hk => Option.noConfusion hk), ?_⟩⟩ <;>
          simp [handleOneCrossRef, hv', hf, hb']
    | none =>
      by_cases hc : s.next_flux_id ≠ src.id ∧ hasTuple s src.id s.next_flux_id f v = false
      · have hc2 : s.cross_references.any (fun cr =>
            cr.source_flux_id == src.id && cr.target_flux_id == s.next_flux_id &&
            cr.reference_field == f && cr.reference_value == v) = false := hc.2
        refine ⟨?_, ?_, ?_,
          ⟨[newCrossRef s.next_cross_id src.id s.next_flux_id f v now], ?_⟩,
          Or.inr ⟨hv', rfl, ?_⟩⟩ <;>
          simp [handleOneCrossRef, hv', hf, hasTuple, freshInstance, hc.1, hc2]
      · rcases not_and_or.mp hc with h | h
        · have h' : s.next_flux_id = src.id := not_not.mp h
          refine ⟨?_, ?_, ?_, ⟨[], ?_⟩, Or.inr ⟨hv', rfl, ?_⟩⟩ <;>
            simp [handleOneCrossRef, hv', hf, hasTuple, freshInstance, h']
        · have h' : hasTuple s src.id s.next_flux_id f v = true := by
            revert h; cases hasTuple s src.id s.next_flux_id f v <;> simp
          have hc2 : s.cross_references.any (fun cr =>
              cr.source_flux_id == src.id && cr.target_flux_id == s.next_flux_id &&
              cr.reference_field == f && cr.reference_value == v) = true := h'
          refine ⟨?_, ?_, ?_, ⟨[], ?_⟩, Or.inr ⟨hv', rfl, ?_⟩⟩ <;>
            simp [handleOneCrossRef, hv', hf, hasTuple, freshInstance, hc2]

/-- One cross-reference step preserves the uniqueness invariant: the
auto-created target's reference is absent from the whole table, so its
key is new. -/
theorem handleOneCrossRef_uniq (now : Nat) (s : Store) (src : FluxInstance)
    (f v : String) (hu : UniqueKeys s.flux_instances) :
    UniqueKeys (handleOneCrossRef now s src f v).flux_instances := by
  rcases (handleOneCrossRef_shape now s src f v).2.2.2.2 with ⟨_, h⟩ | ⟨_, hf, h⟩
  · rw [h]; exact hu
  · rw [h]
    refine uniqueKeys_append _ _ hu ?_
    intro x hx hc
    have := List.find?_eq_none.mp hf x hx
    simp [freshInstance] at hc
    simp [hc.2] at this

/-- The cross-reference loop preserves the uniqueness invariant. -/
theorem handleCrossReferences_uniq (now : Nat) (src : FluxInstance) :
    ∀ (links : List (String × String)) (s : Store),
      UniqueKeys s.flux_instances →
      UniqueKeys (handleCrossReferences now s src links).flux_instances := by
  intro links
  induction links with
  | nil => intro s hu; exact hu
  | cons kv rest ih =>
    intro s hu
    exact ih _ (handleOneCrossRef_uniq now s src kv.1 kv.2 hu)

/-- Parent binding preserves the uniqueness invariant (it only changes
`parent_id` and `updated_at`). -/
theorem bindParent_uniq (now : Nat) (s : Store) (srcId pid : Nat)
    (hu : UniqueKeys s.flux_instances) :
    UniqueKeys (bindParent now s srcId pid).flux_instances := by
  refine uniqueKeys_map _ _ ?_ hu
  intro a
  by_cases h : (a.id == srcId) = true <;> simp [bindParent, h]

/-- Outside the `CREATION_ENFANTS` branch, sub-flow handling either does
nothing or binds a parent. -/
theorem handleSubFlows_nonCE (now : Nat) (s : Store) (src : FluxInstance)
    (pl : ParsedLog) (h : pl.log_type ≠ "CREATION_ENFANTS") :
    handleSubFlows now s src pl = s ∨
    ∃ pid, handleSubFlows now s src pl = bindParent now s src.id pid := by
  have h1 : (pl.log_type == "CREATION_ENFANTS") = false := by simpa using h
  by_cases h2 : (pl.log_type == "TRAITEMENT_ENFANT") = true
  · cases hpr : dictGet pl.payload_fields "parent_ref" with
    | none => left; simp [handleSubFlows, h1, h2, hpr]
    | some pr =>
      by_cases h3 : (pr == "") = true
      · left; simp [handleSubFlows, h1, h2, hpr, h3]
      · have h3' : (pr == "") = false := by revert h3; cases pr == "" <;> simp
        cases hpar : s.flux_instances.find? (fun fi => fi.reference == pr) with
        | none => left; simp [handleSubFlows, h1, h2, hpr, h3', hpar]
        | some parent =>
          cases hpid : src.parent_id with
          | some q => left; simp [handleSubFlows, h1, h2, hpr, h3', hpar, hpid]
          | none =>
            right
            exact ⟨parent.id, by simp [handleSubFlows, h1, h2, hpr, h3', hpar, hpid]⟩
  · have h2' : (pl.log_type == "TRAITEMENT_ENFANT") = false := by
      revert h2; cases pl.log_type == "TRAITEMENT_ENFANT" <;> simp
    left; simp [handleSubFlows, h1, h2']

/-- Computed form of `processParsedLog` when the flux type is unknown. -/
theorem processParsedLog_noft (now : Nat) (s : Store) (pl : ParsedLog)
    (hft : s.flux_types.find? (fun ft => ft.name == pl.flux_type) = none) :
    processParsedLog now s pl = (s, false) := by
  simp [processParsedLog, hft]

/-- Computed form of `processParsedLog` when the application is unknown. -/
theorem processParsedLog_noapp (now : Nat) (s : Store) (pl : ParsedLog)
    (ft : FluxType)
    (hft : s.flux_types.find? (fun ft => ft.name == pl.flux_type) = some ft)
    (happ : s.applications.find? (fun a =>
      a.name == pl.application && a.flux_type_id == ft.id) = none) :
    processParsedLog now s pl = (s, false) := by
  simp [processParsedLog, hft, happ]

/-- Computed form of `processParsedLog` when no main reference exists. -/
theorem processParsedLog_nogoc (now : Nat) (s : Store) (pl : ParsedLog)
    (ft : FluxType) (app : Application)
    (hft : s.flux_types.find? (fun ft => ft.name == pl.flux_type) = some ft)
    (happ : s.applications.find? (fun a =>
      a.name == pl.application && a.flux_type_id == ft.id) = some app)
    (hgoc : getOrCreateFluxInstance now s ft.id pl = none) :
    processParsedLog now s pl = (s, false) := by
  simp [processParsedLog, hft, happ, hgoc]

/-- Computed form of `processParsedLog` on the success path: the five
steps composed, paired with `True`. -/
theorem processParsedLog_success (now : Nat) (s : Store) (pl : ParsedLog)
    (ft : FluxType) (app : Application) (fi : FluxInstance) (s1 : Store)
    (hft : s.flux_types.find? (fun ft => ft.name == pl.flux_type) = some ft)
    (happ : s.applications.find? (fun a =>
      a.name == pl.application && a.flux_type_id == ft.id) = some app)
    (hgoc : getOrCreateFluxInstance now s ft.id pl = some (fi, s1)) :
    processParsedLog now s pl =
      (handleSubFlows now
        (handleCrossReferences now (addLogEntry now s1 fi app pl) fi
          pl.reference_links) fi pl, true) := by
  simp [processParsedLog, hft, happ, hgoc]

/-- The instance-resolution step preserves the uniqueness invariant. -/
theorem getOrCreate_uniq (now : Nat) (s : Store) (ftid : Nat) (pl : ParsedLog)
    (fi : FluxInstance) (s' : Store)
    (h : getOrCreateFluxInstance now s ftid pl = some (fi, s'))
    (hu : UniqueKeys s.flux_instances) : UniqueKeys s'.flux_instances := by
  cases hmr : mainReference pl.identifier_fields with
  | none =>
    rw [show getOrCreateFluxInstance now s ftid pl = none from by
      simp [getOrCreateFluxInstance, hmr]] at h
    cases h
  | some r =>
    cases hfi : s.flux_instances.find? (fun fi =>
        fi.flux_type_id == ftid && fi.reference == r) with
    | some fi0 =>
      rw [show getOrCreateFluxInstance now s ftid pl = some (fi0, s) from by
        simp [getOrCreateFluxInstance, hmr, hfi]] at h
      injection h with h'
      have h2 : s' = s := congrArg Prod.snd h' |>.symm
      rw [h2]; exact hu
    | none =>
      rw [show getOrCreateFluxInstance now s ftid pl =
          some (freshInstance s.next_flux_id ftid r none now,
            { s with
              flux_instances :=
                s.flux_instances ++ [freshInstance s.next_flux_id ftid r none now],
              next_flux_id := s.next_flux_id + 1 }) from by
        simp [getOrCreateFluxInstance, hmr, hfi]] at h
      injection h with h'
      have h2 : s' =
          { s with
            flux_instances :=
              s.flux_instances ++ [freshInstance s.next_flux_id ftid r none now],
            next_flux_id := s.next_flux_id + 1 } := congrArg Prod.snd h' |>.symm
      rw [h2]
      refine uniqueKeys_append _ _ hu ?_
      intro x hx hc
      have := List.find?_eq_none.mp hfi x hx
      simp [freshInstance] at hc
      simp [hc.1, hc.2] at this

/-- C1 (amended): main-reference resolution and cross-reference target
auto-creation preserve the invariant "at most one FluxInstance per
`(flux_type_id, reference)`", and so does `TRAITEMENT_ENFANT` parent
binding; processing any line whose stage is not `CREATION_ENFANTS`
therefore preserves it.  (`CREATION_ENFANTS` child creation does not:
see the counterexample.) -/
theorem c1_uniqueness_preserved (now : Nat) (s : Store) (pl : ParsedLog)
    (hu : UniqueKeys s.flux_instances)
    (hlt : pl.log_type ≠ "CREATION_ENFANTS") :
    UniqueKeys ((processParsedLog now s pl).1.flux_instances) := by
  cases hft : s.flux_types.find? (fun ft => ft.name == pl.flux_type) with
  | none => rw [processParsedLog_noft now s pl hft]; exact hu
  | some ft =>
    cases happ : s.applications.find? (fun a =>
        a.name == pl.application && a.flux_type_id == ft.id) with
    | none => rw [processParsedLog_noapp now s pl ft hft happ]; exact hu
    | some app =>
      cases hgoc : getOrCreateFluxInstance now s ft.id pl with
      | none => rw [processParsedLog_nogoc now s pl ft app hft happ hgoc]; exact hu
      | some pr =>
        cases pr with
        | mk fi s1 =>
          rw [processParsedLog_success now s pl ft app fi s1 hft happ hgoc]
          have hu1 : UniqueKeys s1.flux_instances :=
            getOrCreate_uniq now s ft.id pl fi s1 hgoc hu
          have hu2 : UniqueKeys (addLogEntry now s1 fi app pl).flux_instances := hu1
          have hu3 : UniqueKeys
              (handleCrossReferences now (addLogEntry now s1 fi app pl) fi
                pl.reference_links).flux_instances :=
            handleCrossReferences_uniq now fi pl.reference_links _ hu2
          rcases handleSubFlows_nonCE now
              (handleCrossReferences now (addLogEntry now s1 fi app pl) fi
                pl.reference_links) fi pl hlt with h | ⟨pid, h⟩
          · show UniqueKeys (handleSubFlows now _ fi pl).flux_instances
            rw [h]; exact hu3
          · show UniqueKeys (handleSubFlows now _ fi pl).flux_instances
            rw [h]; exact bindParent_uniq now _ fi.id pid hu3

/-- Detailed specification of `_get_or_create_flux_instance` on success:
the returned instance carries the key `(flux_type_id, main_reference)`,
and the store is unchanged (found) or extended by exactly that fresh
row. -/
theorem getOrCreate_spec (now : Nat) (s : Store) (ftid : Nat) (pl : ParsedLog)
    (fi : FluxInstance) (s1 : Store)
    (h : getOrCreateFluxInstance now s ftid pl = some (fi, s1)) :
    ∃ r, mainReference pl.identifier_fields = some r ∧
      fi.flux_type_id = ftid ∧ fi.reference = r ∧
      ((s.flux_instances.find? (fun x =>
          x.flux_type_id == ftid && x.reference == r) = some fi ∧ s1 = s) ∨
       (s.flux_instances.find? (fun x =>
          x.flux_type_id == ftid && x.reference == r) = none ∧
        fi = freshInstance s.next_flux_id ftid r none now ∧
        s1 = { s with flux_instances := s.flux_instances ++ [fi],
                      next_flux_id := s.next_flux_id + 1 })) := by
  cases hmr : mainReference pl.identifier_fields with
  | none =>
    rw [show getOrCreateFluxInstance now s ftid pl = none from by
      simp [getOrCreateFluxInstance, hmr]] at h
    cases h
  | some r =>
    refine ⟨r, rfl, ?_⟩
    cases hfi : s.flux_instances.find? (fun x =>
        x.flux_type_id == ftid && x.reference == r) with
    | some fi0 =>
      rw [show getOrCreateFluxInstance now s ftid pl = some (fi0, s) from by
        simp [getOrCreateFluxInstance, hmr, hfi]] at h
      injection h with h'
      have h1 : fi = fi0 := (congrArg Prod.fst h').symm
      have h2 : s1 = s := (congrArg Prod.snd h').symm
      subst h1; subst h2
      have hp := List.find?_some hfi
      simp only [Bool.and_eq_true, beq_iff_eq] at hp
      exact ⟨hp.1, hp.2, Or.inl ⟨rfl, rfl⟩⟩
    | none =>
      rw [show getOrCreateFluxInstance now s ftid pl =
          some (freshInstance s.next_flux_id ftid r none now,
            { s with
              flux_instances :=
                s.flux_instances ++ [freshInstance s.next_flux_id ftid r none now],
              next_flux_id := s.next_flux_id + 1 }) from by
        simp [getOrCreateFluxInstance, hmr, hfi]] at h
      injection h with h'
      have h1 : fi = freshInstance s.next_flux_id ftid r none now :=
        (congrArg Prod.fst h').symm
      have h2 : s1 =
          { s with
            flux_instances :=
              s.flux_instances ++ [freshInstance s.next_flux_id ftid r none now],
            next_flux_id := s.next_flux_id + 1 } := (congrArg Prod.snd h').symm
      subst h1
      exact ⟨rfl, rfl, Or.inr ⟨rfl, rfl, h2⟩⟩

/-- The cross-reference loop leaves the catalog tables and log entries
unchanged, and only appends to the instance and cross-reference tables. -/
theorem handleCrossReferences_shape (now : Nat) (src : FluxInstance) :
    ∀ (links : List (String × String)) (s : Store),
      (handleCrossReferences now s src links).flux_types = s.flux_types ∧
      (handleCrossReferences now s src links).applications = s.applications ∧
      (handleCrossReferences now s src links).log_entries = s.log_entries ∧
      (∃ tl, (handleCrossReferences now s src links).flux_instances =
        s.flux_instances ++ tl) ∧
      (∃ tl, (handleCrossReferences now s src links).cross_references =
        s.cross_references ++ tl) := by
  intro links
  induction links with
  | nil => intro s; exact ⟨rfl, rfl, rfl, ⟨[], by simp [handleCrossReferences]⟩,
      ⟨[], by simp [handleCrossReferences]⟩⟩
  | cons kv rest ih =>
    intro s
    have h1 := handleOneCrossRef_shape now s src kv.1 kv.2
    have h2 := ih (handleOneCrossRef now s src kv.1 kv.2)
    have hstep : handleCrossReferences now s src (kv :: rest) =
        handleCrossReferences now (handleOneCrossRef now s src kv.1 kv.2) src rest := by
      simp [handleCrossReferences]
    rw [hstep]
    refine ⟨by rw [h2.1, h1.1], by rw [h2.2.1, h1.2.1], by rw [h2.2.2.1, h1.2.2.1], ?_, ?_⟩
    · rcases h2.2.2.2.1 with ⟨tl2, htl2⟩
      rcases h1.2.2.2.2 with ⟨_, h⟩ | ⟨_, _, h⟩
      · exact ⟨tl2, by rw [htl2, h]⟩
      · exact ⟨[freshInstance s.next_flux_id src.flux_type_id kv.2 none now] ++ tl2,
          by rw [htl2, h, List.append_assoc]⟩
    · rcases h2.2.2.2.2 with ⟨tl2, htl2⟩
      rcases h1.2.2.2.1 with ⟨tl1, htl1⟩
      exact ⟨tl1 ++ tl2, by rw [htl2, htl1, List.append_assoc]⟩

/-- Sub-flow handling leaves the catalog tables, the log entries and the
cross references unchanged (in every branch). -/
theorem handleSubFlows_shape (now : Nat) (s : Store) (src : FluxInstance)
    (pl : ParsedLog) :
    (handleSubFlows now s src pl).flux_types = s.flux_types ∧
    (handleSubFlows now s src pl).applications = s.applications ∧
    (handleSubFlows now s src pl).log_entries = s.log_entries ∧
    (handleSubFlows now s src pl).cross_references = s.cross_references := by
  by_cases hce : (pl.log_type == "CREATION_ENFANTS") = true
  · cases hids : dictGet pl.payload_fields "enfants_ids" with
    | none => simp [handleSubFlows, hce, hids]
    | some ids =>
      by_cases hne : (ids == "") = true
      · simp [handleSubFlows, hce, hids, hne]
      · have hne' : (ids == "") = false := by revert hne; cases ids == "" <;> simp
        have hfold := foldl_addChild_spec now src (splitIds ids) s
        have hs : handleSubFlows now s src pl =
            (splitIds ids).foldl (fun st cid => addChild now st src cid) s := by
          simp [handleSubFlows, hce, hids, hne']
        rw [hs]
        exact ⟨hfold.2.2.2.1, hfold.2.2.2.2, hfold.2.1, hfold.2.2.1⟩
  · have hce' : pl.log_type ≠ "CREATION_ENFANTS" := by
      intro hk; rw [hk] at hce; simp at hce
    rcases handleSubFlows_nonCE now s src pl hce' with h | ⟨pid, h⟩
    · rw [h]; exact ⟨rfl, rfl, rfl, rfl⟩
    · rw [h]; exact ⟨rfl, rfl, rfl, rfl⟩

/-- Processing a line never touches the `flux_types` and `applications`
tables. -/
theorem processParsedLog_catalog (now : Nat) (s : Store) (pl : ParsedLog) :
    (processParsedLog now s pl).1.flux_types = s.flux_types ∧
    (processParsedLog now s pl).1.applications = s.applications := by
  cases hft : s.flux_types.find? (fun ft => ft.name == pl.flux_type) with
  | none => rw [processParsedLog_noft now s pl hft]; exact ⟨rfl, rfl⟩
  | some ft =>
    cases happ : s.applications.find? (fun a =>
        a.name == pl.application && a.flux_type_id == ft.id) with
    | none => rw [processParsedLog_noapp now s pl ft hft happ]; exact ⟨rfl, rfl⟩
    | some app =>
      cases hgoc : getOrCreateFluxInstance now s ft.id pl with
      | none => rw [processParsedLog_nogoc now s pl ft app hft happ hgoc]; exact ⟨rfl, rfl⟩
      | some pr =>
        cases pr with
        | mk fi s1 =>
          rw [processParsedLog_success now s pl ft app fi s1 hft happ hgoc]
          rcases getOrCreate_spec now s ft.id pl fi s1 hgoc with
            ⟨r, hmr, hkey1, hkey2, hcase⟩
          have hs1 : s1.flux_types = s.flux_types ∧ s1.applications = s.applications := by
            rcases hcase with ⟨_, h⟩ | ⟨_, _, h⟩ <;> rw [h] <;> exact ⟨rfl, rfl⟩
          have hcr := handleCrossReferences_shape now fi pl.reference_links
            (addLogEntry now s1 fi app pl)
          have hsf := handleSubFlows_shape now
            (handleCrossReferences now (addLogEntry now s1 fi app pl) fi
              pl.reference_links) fi pl
          constructor
          · show (handleSubFlows now _ fi pl).flux_types = s.flux_types
            rw [hsf.1, hcr.1]
            exact hs1.1
          · show (handleSubFlows now _ fi pl).applications = s.applications
            rw [hsf.2.1, hcr.2.1]
            exact hs1.2

/-- A flow key `(flux_type_id, reference)` is present in the store. -/
def hasKey (s : Store) (t : Nat) (r : String) : Prop :=
  ∃ fi ∈ s.flux_instances, fi.flux_type_id = t ∧ fi.reference = r

instance (s : Store) (t : Nat) (r : String) : Decidable (hasKey s t r) :=
  List.decidableBEx _ s.flux_instances

/-- The key a line resolves to: its flux type's id (when configured,
together with its application) paired with its main reference. -/
def resolveKey (s : Store) (pl : ParsedLog) : Option (Nat × String) :=
  match s.flux_types.find? (fun ft => ft.name == pl.flux_type) with
  | none => none
  | some ft =>
    match s.applications.find? (fun a =>
        a.name == pl.application && a.flux_type_id == ft.id) with
    | none => none
    | some _ =>
      match mainReference pl.identifier_fields with
      | none => none
      | some r => some (ft.id, r)

/-- `resolveKey` only reads the catalog tables. -/
theorem resolveKey_congr (s s' : Store) (pl : ParsedLog)
    (hft : s'.flux_types = s.flux_types)
    (happ : s'.applications = s.applications) :
    resolveKey s' pl = resolveKey s pl := by
  simp [resolveKey, hft, happ]

/-- A line with no reference links and no sub-flow stage: such a line
only resolves (or creates) its own key. -/
def plainLine (pl : ParsedLog) : Prop :=
  pl.reference_links = [] ∧ pl.log_type ≠ "CREATION_ENFANTS" ∧
  pl.log_type ≠ "TRAITEMENT_ENFANT"

instance (pl : ParsedLog) : Decidable (plainLine pl) :=
  inferInstanceAs (Decidable (_ ∧ _ ∧ _))

/-- Neither special stage: sub-flow handling is the identity. -/
theorem handleSubFlows_other (now : Nat) (s : Store) (src : FluxInstance)
    (pl : ParsedLog) (h1 : pl.log_type ≠ "CREATION_ENFANTS")
    (h2 : pl.log_type ≠ "TRAITEMENT_ENFANT") :
    handleSubFlows now s src pl = s := by
  have h1' : (pl.log_type == "CREATION_ENFANTS") = false := by simpa using h1
  have h2' : (pl.log_type == "TRAITEMENT_ENFANT") = false := by simpa using h2
  simp [handleSubFlows, h1', h2']

/-- Key-set effect of processing one plain line: the store's key set
gains exactly the line's resolved key (when it resolves). -/
theorem plain_step_key (now : Nat) (s : Store) (pl : ParsedLog)
    (hp : plainLine pl) (t : Nat) (r : String) :
    hasKey (processParsedLog now s pl).1 t r ↔
      hasKey s t r ∨ resolveKey s pl = some (t, r) := by
  cases hft : s.flux_types.find? (fun ft => ft.name == pl.flux_type) with
  | none =>
    rw [processParsedLog_noft now s pl hft]
    simp [resolveKey, hft]
  | some ft =>
    cases happ : s.applications.find? (fun a =>
        a.name == pl.application && a.flux_type_id == ft.id) with
    | none =>
      rw [processParsedLog_noapp now s pl ft hft happ]
      simp [resolveKey, hft, happ]
    | some app =>
      cases hmr : mainReference pl.identifier_fields with
      | none =>
        have hgoc : getOrCreateFluxInstance now s ft.id pl = none := by
          simp [getOrCreateFluxInstance, hmr]
        rw [processParsedLog_nogoc now s pl ft app hft happ hgoc]
        simp [resolveKey, hft, happ, hmr]
      | some r0 =>
        cases hgoc : getOrCreateFluxInstance now s ft.id pl with
        | none =>
          exfalso
          cases hfi : s.flux_instances.find? (fun x =>
              x.flux_type_id == ft.id && x.reference == r0) with
          | some fi0 =>
            rw [show getOrCreateFluxInstance now s ft.id pl = some (fi0, s) from by
              simp [getOrCreateFluxInstance, hmr, hfi]] at hgoc
            cases hgoc
          | none =>
            rw [show getOrCreateFluxInstance now s ft.id pl =
                some (freshInstance s.next_flux_id ft.id r0 none now,
                  { s with
                    flux_instances := s.flux_instances ++
                      [freshInstance s.next_flux_id ft.id r0 none now],
                    next_flux_id := s.next_flux_id + 1 }) from by
              simp [getOrCreateFluxInstance, hmr, hfi]] at hgoc
            cases hgoc
        | some pr =>
          cases pr with
          | mk fi s1 =>
            rw [processParsedLog_success now s pl ft app fi s1 hft happ hgoc]
            have hlinks : pl.reference_links = [] := hp.1
            have hcr : handleCrossReferences now (addLogEntry now s1 fi app pl) fi
                pl.reference_links = addLogEntry now s1 fi app pl := by
              rw [hlinks]; rfl
            have hsf := handleSubFlows_other now (addLogEntry now s1 fi app pl) fi pl
              hp.2.1 hp.2.2
            show hasKey (handleSubFlows now (handleCrossReferences now
              (addLogEntry now s1 fi app pl) fi pl.reference_links) fi pl) t r ↔ _
            rw [hcr, hsf]
            have hkeylog : hasKey (addLogEntry now s1 fi app pl) t r ↔ hasKey s1 t r := by
              simp [hasKey, addLogEntry]
            rw [hkeylog]
            rcases getOrCreate_spec now s ft.id pl fi s1 hgoc with
              ⟨r1, hmr1, hkey1, hkey2, hcase⟩
            have hres : resolveKey s pl = some (ft.id, r1) := by
              simp [resolveKey, hft, happ, hmr1]
            rw [hres]
            rcases hcase with ⟨hfind, hs1⟩ | ⟨hfind, hfi, hs1⟩
            · subst hs1
              constructor
              · exact fun h => Or.inl h
              · rintro (h | h)
                · exact h
                · injection h with hpair
                  have ht1 : ft.id = t := congrArg Prod.fst hpair
                  have hr2 : r1 = r := congrArg Prod.snd hpair
                  exact ⟨fi, List.mem_of_find?_eq_some hfind,
                    by rw [hkey1, ht1], by rw [hkey2, hr2]⟩
            · rw [hs1]
              have hsplit : hasKey
                  { s with flux_instances := s.flux_instances ++ [fi],
                           next_flux_id := s.next_flux_id + 1 } t r ↔
                  hasKey s t r ∨ (fi.flux_type_id = t ∧ fi.reference = r) := by
                constructor
                · rintro ⟨x, hx, hxk⟩
                  rcases List.mem_append.mp hx with hx' | hx'
                  · exact Or.inl ⟨x, hx', hxk⟩
                  · rw [List.mem_singleton.mp hx'] at hxk
                    exact Or.inr hxk
                · rintro (⟨x, hx, hxk⟩ | hk)
                  · exact ⟨x, List.mem_append.mpr (Or.inl hx), hxk⟩
                  · exact ⟨fi, List.mem_append.mpr (Or.inr (List.mem_singleton.mpr rfl)), hk⟩
              rw [hsplit, hkey1, hkey2]
              constructor
              · rintro (h | ⟨h1, h2⟩)
                · exact Or.inl h
                · exact Or.inr (by rw [h1, h2])
              · rintro (h | h)
                · exact Or.inl h
                · injection h with hpair
                  exact Or.inr ⟨congrArg Prod.fst hpair, congrArg Prod.snd hpair⟩

/-- Key-set effect of a whole batch of plain lines. -/
theorem processAll_key (t : Nat) (r : String) :
    ∀ (L : List ParsedLog) (now : Nat) (s : Store),
      (∀ pl ∈ L, plainLine pl) →
      (hasKey (processAll now s L) t r ↔
        hasKey s t r ∨ ∃ pl ∈ L, resolveKey s pl = some (t, r)) := by
  intro L
  induction L with
  | nil => intro now s hp; simp [processAll]
  | cons pl rest ih =>
    intro now s hp
    have hstep : processAll now s (pl :: rest) =
        processAll (now + 1) (processParsedLog now s pl).1 rest := rfl
    rw [hstep]
    have hcat := processParsedLog_catalog now s pl
    rw [ih (now + 1) (processParsedLog now s pl).1
      (fun q hq => hp q (List.mem_cons_of_mem pl hq))]
    rw [plain_step_key now s pl (hp pl (List.mem_cons_self pl rest)) t r]
    have hrk : ∀ q, resolveKey (processParsedLog now s pl).1 q = resolveKey s q :=
      fun q => resolveKey_congr s _ q hcat.1 hcat.2
    simp only [hrk]
    constructor
    · rintro ((h | h) | ⟨q, hq, hqr⟩)
      · exact Or.inl h
      · exact Or.inr ⟨pl, List.mem_cons_self pl rest, h⟩
      · exact Or.inr ⟨q, List.mem_cons_of_mem pl hq, hqr⟩
    · rintro (h | ⟨q, hq, hqr⟩)
      · exact Or.inl (Or.inl h)
      · rcases List.mem_cons.mp hq with h' | h'
        · exact Or.inl (Or.inr (h' ▸ hqr))
        · exact Or.inr ⟨q, h', hqr⟩

/-- C7 (amended): for batches of plain lines (no reference links, no
`CREATION_ENFANTS` / `TRAITEMENT_ENFANT` stage), ingestion order does not
matter: any two permutations leave exactly the same set of
`(flux_type_id, reference)` keys in the store, from any starting clocks.
(For general lines the property fails: see the counterexample.) -/
theorem c7_plain_order_independence (now1 now2 : Nat) (s : Store)
    (L1 L2 : List ParsedLog) (hperm : L1.Perm L2)
    (hp : ∀ pl ∈ L1, plainLine pl) (t : Nat) (r : String) :
    hasKey (processAll now1 s L1) t r ↔ hasKey (processAll now2 s L2) t r := by
  rw [processAll_key t r L1 now1 s hp,
      processAll_key t r L2 now2 s (fun q hq => hp q (hperm.mem_iff.mpr hq))]
  constructor
  · rintro (h | ⟨q, hq, hqr⟩)
    · exact Or.inl h
    · exact Or.inr ⟨q, hperm.mem_iff.mp hq, hqr⟩
  · rintro (h | ⟨q, hq, hqr⟩)
    · exact Or.inl h
    · exact Or.inr ⟨q, hperm.mem_iff.mpr hq, hqr⟩

/-- A second plain line, with main reference `B`. -/
def pl7b : ParsedLog :=
  { timestamp := 2, log_type := "AUTRE", application := "app",
    flux_type := "CMD", identifier_fields := [("cmd", "B")],
    payload_fields := [], reference_links := [], raw_log := "rB" }

/-- Witness for `c7_plain_order_independence`: swapping two plain lines
leaves the key `(1, "A")` present either way. -/
theorem c7_plain_order_independence_witness :
    hasKey (processAll 0 storeW [pl6a, pl7b]) 1 "A" ↔
      hasKey (processAll 5 storeW [pl7b, pl6a]) 1 "A" :=
  c7_plain_order_independence 0 5 storeW [pl6a, pl7b] [pl7b, pl6a]
    (List.Perm.swap pl7b pl6a []) (by decide) 1 "A"

/-- A store with two configured flow types (`CMD` and `LIV`), each with
one application, and no instances. -/
def store7 : Store :=
  { flux_types := [⟨1, "CMD"⟩, ⟨2, "LIV"⟩],
    applications := [⟨1, "app", 1⟩, ⟨2, "app", 2⟩],
    flux_instances := [], log_entries := [], cross_references := [],
    next_flux_id := 1, next_log_id := 1, next_cross_id := 1 }

/-- A `CMD` line whose reference links mention `R`. -/
def pl7x : ParsedLog :=
  { timestamp := 1, log_type := "VALID", application := "app",
    flux_type := "CMD", identifier_fields := [("cmd", "X")],
    payload_fields := [], reference_links := [("ordre", "R")], raw_log := "rX" }

/-- A `LIV` line whose main reference is `R` (so the referenced id `R` is
eventually observed). -/
def pl7r : ParsedLog :=
  { timestamp := 2, log_type := "RECU", application := "app",
    flux_type := "LIV", identifier_fields := [("liv", "R")],
    payload_fields := [], reference_links := [], raw_log := "rR" }

/-- Counterexample to C7 as stated: the two orders of the same two lines
(each referenced id being observed) do not produce the same set of
FluxInstances.  Ingesting `pl7x` first auto-creates the target `R` with
the source's flow type `CMD`, and the later `LIV` line for `R` then
creates a second, distinct instance (3 instances); in the other order the
cross-reference finds the existing `LIV` instance and creates nothing
(2 instances). -/
theorem c7_counterexample :
    (processAll 0 store7 [pl7x, pl7r]).flux_instances.length = 3 ∧
    (processAll 0 store7 [pl7r, pl7x]).flux_instances.length = 2 := by
  exact ⟨by decide, by decide⟩

/-- The completion rate never exceeds 100.0 (1000 tenths). -/
theorem completionRate10_le (t c : Nat) (h : 0 < t) (hc : c ≤ t) :
    completionRate10 t c ≤ 1000 := by
  rw [completionRate10, if_pos h]
  have h2t : 0 < 2 * t := by omega
  have := (Nat.div_lt_iff_lt_mul h2t).mpr (show 2 * (1000 * c) + t < 1001 * (2 * t) by omega)
  omega

/-- The computed rate reaches 100.0 exactly when the missing share,
`m / t`, is at most `1 / 2000` (rounding pushes everything above
99.95 percent up to 100.0). -/
theorem completionRate10_eq_1000_iff (t m : Nat) (h : 0 < t) (hm : m ≤ t) :
    (completionRate10 t (t - m) = 1000 ↔ 2000 * m ≤ t) := by
  have h2t : 0 < 2 * t := by omega
  have hle : completionRate10 t (t - m) ≤ 1000 := completionRate10_le t (t - m) h (by omega)
  rw [completionRate10, if_pos h] at hle ⊢
  constructor
  · intro he
    have h1 : 1000 ≤ (2 * (1000 * (t - m)) + t) / (2 * t) := by omega
    rw [Nat.le_div_iff_mul_le h2t] at h1
    omega
  · intro hge
    have h1 : 1000 ≤ (2 * (1000 * (t - m)) + t) / (2 * t) :=
      (Nat.le_div_iff_mul_le h2t).mpr (by omega)
    omega

/-- The integer-division form used in the model agrees with the exact
rational rounding of `1000 * completed / total` (nearest integer, half
up). -/
theorem completionRate10_eq_round (t c : Nat) (h : 0 < t) :
    (completionRate10 t c : ℤ) = round ((1000 * c : ℚ) / t) := by
  rw [completionRate10, if_pos h, round_eq]
  have ht : (t : ℚ) ≠ 0 := Nat.cast_ne_zero.mpr (by omega)
  have hx : (1000 * c : ℚ) / t + 1 / 2 =
      (((2 * (1000 * c) + t : ℕ) : ℤ) : ℚ) / ((2 * t : ℕ) : ℚ) := by
    push_cast
    field_simp
    ring
  rw [hx, Rat.floor_intCast_div_natCast]
  have : ((2 * (1000 * c) + t : ℕ) : ℤ) / ((2 * t : ℕ) : ℤ) =
      (((2 * (1000 * c) + t) / (2 * t) : ℕ) : ℤ) := (Int.natCast_div _ _).symm
  rw [this]

/-- C9 (amended): every record reported by `get_incomplete_flows` carries
`completion_rate = round1(100 × (|required| − |missing_required|) / |required|)`
(stated both against the model's integer form and against the exact
rational rounding), its `missing_required_stages` is never empty, and the
rate equals 100.0 exactly when `2000 × |missing_required| ≤ |required|` —
so, because of rounding, a reported (hence incomplete) flow can still
show 100.0 once `|required| ≥ 2000 × |missing_required|`; only for
smaller required lists does "rate = 100 iff nothing required is missing"
hold. -/
theorem c9_completion_rate (cfg : List FluxTypeConfig) (s : Store)
    (name : String) (lst : List IncompleteInfo) (info : IncompleteInfo)
    (h1 : (name, lst) ∈ getIncompleteFlows cfg s) (h2 : info ∈ lst) :
    info.completion_rate10 =
      completionRate10 info.required_stages.length
        (info.required_stages.length - info.missing_required_stages.length) ∧
    (info.completion_rate10 : ℤ) =
      round ((1000 * ((info.required_stages.length -
        info.missing_required_stages.length : ℕ) : ℚ)) /
        (info.required_stages.length : ℚ)) ∧
    info.missing_required_stages ≠ [] ∧
    (info.completion_rate10 = 1000 ↔
      2000 * info.missing_required_stages.length ≤ info.required_stages.length) := by
  rcases List.mem_filterMap.mp h1 with ⟨fc, hfc, heq⟩
  by_cases hreq : fc.required_steps.isEmpty = true
  · rw [if_pos hreq] at heq; cases heq
  · rw [if_neg hreq] at heq
    cases hft : s.flux_types.find? (fun ft => ft.name == fc.name) with
    | none => rw [hft] at heq; cases heq
    | some ft =>
      rw [hft, Option.some_bind] at heq
      by_cases hinc : ((s.flux_instances.filter (fun fi =>
          fi.flux_type_id == ft.id && fi.parent_id == none)).filter (fun fi =>
            !(missingOf fc.required_steps (logTypesPresent s fi.id)).isEmpty)).map
            (incompleteInfoFor fc.required_steps fc.optional_steps s) = []
      · simp only [hinc] at heq
        rw [if_pos (by simp)] at heq
        cases heq
      · rw [if_neg (by simpa using hinc)] at heq
        injection heq with hpair
        have hl : (List.map (incompleteInfoFor fc.required_steps fc.optional_steps s)
            (List.filter (fun fi =>
              !(missingOf fc.required_steps (logTypesPresent s fi.id)).isEmpty)
              (List.filter (fun fi => fi.flux_type_id == ft.id && fi.parent_id == none)
                s.flux_instances))) = lst := congrArg Prod.snd hpair
        rw [← hl] at h2
        rcases List.mem_map.mp h2 with ⟨fi, hfi, hinfo⟩
        rcases List.mem_filter.mp hfi with ⟨hfi1, hfi2⟩
        have hmiss : missingOf fc.required_steps (logTypesPresent s fi.id) ≠ [] := by
          intro hk
          rw [hk] at hfi2
          simp at hfi2
        have hlen : 0 < fc.required_steps.length := by
          cases hq : fc.required_steps with
          | nil => rw [hq] at hreq; simp at hreq
          | cons a l => simp [hq]
        have hmle : (missingOf fc.required_steps (logTypesPresent s fi.id)).length ≤
            fc.required_steps.length := List.length_filter_le _ _
        subst hinfo
        refine ⟨rfl, ?_, hmiss, ?_⟩
        · exact completionRate10_eq_round fc.required_steps.length
            (fc.required_steps.length -
              (missingOf fc.required_steps (logTypesPresent s fi.id)).length) hlen
        · exact completionRate10_eq_1000_iff fc.required_steps.length
            (missingOf fc.required_steps (logTypesPresent s fi.id)).length hlen hmle

/-- A top-level instance with no logs, for the diagnostics witness. -/
def fi9w : FluxInstance := ⟨1, 1, "F", "ACTIF", 0, 0, none⟩

/-- A store with one flow type `T` and the single instance `fi9w`. -/
def s9w : Store :=
  { flux_types := [⟨1, "T"⟩], applications := [⟨1, "app", 1⟩],
    flux_instances := [fi9w], log_entries := [], cross_references := [],
    next_flux_id := 2, next_log_id := 1, next_cross_id := 1 }

/-- Witness for `c9_completion_rate`: with two required stages and no
logs, the reported record misses both stages and shows rate 0. -/
theorem c9_completion_rate_witness :
    (incompleteInfoFor ["A", "B"] [] s9w fi9w).completion_rate10 =
      completionRate10 (incompleteInfoFor ["A", "B"] [] s9w fi9w).required_stages.length
        ((incompleteInfoFor ["A", "B"] [] s9w fi9w).required_stages.length -
          (incompleteInfoFor ["A", "B"] [] s9w fi9w).missing_required_stages.length) ∧
    ((incompleteInfoFor ["A", "B"] [] s9w fi9w).completion_rate10 : ℤ) =
      round ((1000 * (((incompleteInfoFor ["A", "B"] [] s9w fi9w).required_stages.length -
        (incompleteInfoFor ["A", "B"] [] s9w fi9w).missing_required_stages.length : ℕ) : ℚ)) /
        ((incompleteInfoFor ["A", "B"] [] s9w fi9w).required_stages.length : ℚ)) ∧
    (incompleteInfoFor ["A", "B"] [] s9w fi9w).missing_required_stages ≠ [] ∧
    ((incompleteInfoFor ["A", "B"] [] s9w fi9w).completion_rate10 = 1000 ↔
      2000 * (incompleteInfoFor ["A", "B"] [] s9w fi9w).missing_required_stages.length ≤
        (incompleteInfoFor ["A", "B"] [] s9w fi9w).required_stages.length) :=
  c9_completion_rate [⟨"T", ["A", "B"], []⟩] s9w "T"
    [incompleteInfoFor ["A", "B"] [] s9w fi9w]
    (incompleteInfoFor ["A", "B"] [] s9w fi9w) (by decide) (by decide)

/-- The instance of the rounding counterexample (one log of type `B`). -/
def fi9c : FluxInstance := ⟨1, 1, "F1", "ACTIF", 0, 0, none⟩

/-- A store where `fi9c` has exactly one log entry, of stage `B`. -/
def s9c : Store :=
  { flux_types := [⟨1, "T"⟩], applications := [⟨1, "app", 1⟩],
    flux_instances := [fi9c],
    log_entries := [⟨1, 1, 1, "B", 5, "raw", ([], [], []), 0⟩],
    cross_references := [],
    next_flux_id := 2, next_log_id := 2, next_cross_id := 1 }

/-- A required list of 2001 stages: `A` followed by stage `B` repeated
2000 times (list lengths, not distinct names, drive the rate formula). -/
def req9 : List String := "A" :: List.replicate 2000 "B"

/-- Exactly the stage `A` is missing for `fi9c` under `req9`. -/
theorem missing9 : missingOf req9 (logTypesPresent s9c 1) = ["A"] := by
  have hp : logTypesPresent s9c 1 = ["B"] := by decide
  have h : (List.replicate 2000 "B").filter (fun st => !(List.contains ["B"] st)) = [] :=
    List.filter_replicate_of_neg (by decide)
  rw [hp, req9]
  simp only [missingOf, List.filter_cons]
  rw [h]
  decide

/-- The single-flux report produced by the counterexample store. -/
theorem report9 (req : List String) (hne : req.isEmpty = false)
    (hmiss : missingOf req (logTypesPresent s9c 1) = ["A"]) :
    getIncompleteFlows [⟨"T", req, []⟩] s9c =
      [("T", [incompleteInfoFor req [] s9c fi9c])] := by
  have hfind : s9c.flux_types.find? (fun ft => ft.name == "T") = some ⟨1, "T"⟩ := by decide
  simp only [getIncompleteFlows, List.filterMap_cons, List.filterMap_nil, hne]
  simp only [hfind, Option.some_bind]
  rw [show s9c.flux_instances.filter
        (fun fi => fi.flux_type_id == (⟨1, "T"⟩ : FluxType).id && fi.parent_id == none) =
      [fi9c] from by decide]
  simp only [List.filter_cons, List.filter_nil]
  simp only [show fi9c.id = 1 from rfl, hmiss]
  simp

/-- Counterexample to C9 as stated: with 2001 required stages of which
exactly one is missing, the reported flow has
`completion_rate = round1(100 × 2000 / 2001) = 100.0` while
`missing_required_stages = ["A"]` is non-empty, refuting
"completion_rate equals 100 iff missing_required_stages is empty". -/
theorem c9_counterexample :
    getIncompleteFlows [⟨"T", req9, []⟩] s9c =
      [("T", [incompleteInfoFor req9 [] s9c fi9c])] ∧
    (incompleteInfoFor req9 [] s9c fi9c).completion_rate10 = 1000 ∧
    (incompleteInfoFor req9 [] s9c fi9c).missing_required_stages = ["A"] := by
  refine ⟨report9 req9 (by rw [req9]; rfl) missing9, ?_, ?_⟩
  · simp only [incompleteInfoFor]
    rw [show fi9c.id = 1 from rfl, missing9]
    rw [show req9.length = 2001 from by
      rw [req9, List.length_cons, List.length_replicate]]
    decide
  · simp only [incompleteInfoFor]
    rw [show fi9c.id = 1 from rfl, missing9]

/-- A `(ref_field, ref_value)` pair is settled for a source id: either the
value is empty (the loop skips it), or the first instance carrying the
value resolves to a target that is the source itself or already has its
edge tuple — exactly the states in which a rerun of the loop body is a
no-op. -/
def refSettled (s : Store) (srcId : Nat) (f v : String) : Prop :=
  v = "" ∨ ∃ tid,
    (s.flux_instances.find? (fun fi => fi.reference == v)).map FluxInstance.id =
      some tid ∧
    (tid = srcId ∨ hasTuple s srcId tid f v = true)

/-- Settledness survives appending rows to the instance and
cross-reference tables. -/
theorem refSettled_mono (s s' : Store) (i : Nat) (f v : String)
    (hI : ∃ tl, s'.flux_instances = s.flux_instances ++ tl)
    (hC : ∃ tl, s'.cross_references = s.cross_references ++ tl)
    (h : refSettled s i f v) : refSettled s' i f v := by
  rcases h with hv | ⟨tid, hfind, hcase⟩
  · exact Or.inl hv
  · right
    rcases hI with ⟨tl, hI⟩
    rcases hC with ⟨tl2, hC⟩
    cases hf : s.flux_instances.find? (fun fi => fi.reference == v) with
    | none => rw [hf] at hfind; cases hfind
    | some t =>
      rw [hf] at hfind
      refine ⟨tid, ?_, ?_⟩
      · rw [hI, find?_append_some hf]; exact hfind
      · rcases hcase with hid | htup
        · exact Or.inl hid
        · right
          simp only [hasTuple] at htup ⊢
          rw [hC, List.any_append, htup]
          rfl

/-- Settledness survives parent binding (which changes neither
references, nor ids, nor the cross-reference table). -/
theorem refSettled_bindParent (now : Nat) (s : Store) (a b i : Nat) (f v : String)
    (h : refSettled s i f v) : refSettled (bindParent now s a b) i f v := by
  rcases h with hv | ⟨tid, hfind, hcase⟩
  · exact Or.inl hv
  · right
    have hmap : (bindParent now s a b).flux_instances.find?
        (fun fi => fi.reference == v) =
        (s.flux_instances.find? (fun fi => fi.reference == v)).map
          (fun x => if x.id == a then { x with parent_id := some b, updated_at := now }
            else x) := by
      show (s.flux_instances.map _).find? _ = _
      refine find?_map_invariant _ ?_ s.flux_instances
      intro x
      by_cases hx : (x.id == a) = true <;> simp [hx]
    cases hf : s.flux_instances.find? (fun fi => fi.reference == v) with
    | none => rw [hf] at hfind; cases hfind
    | some t =>
      rw [hf] at hfind
      refine ⟨tid, ?_, ?_⟩
      · rw [hmap, hf]
        simp only [Option.map_map, Option.map_some]
        by_cases hx : t.id = a
        · simpa [hx] using hfind
        · simpa [hx] using hfind
      · rcases hcase with hid | htup
        · exact Or.inl hid
        · exact Or.inr htup

/-- After one loop iteration its own pair is settled. -/
theorem handleOneCrossRef_settles (now : Nat) (s : Store) (src : FluxInstance)
    (f v : String) : refSettled (handleOneCrossRef now s src f v) src.id f v := by
  by_cases hv : (v == "") = true
  · exact Or.inl (by simpa using hv)
  · have hv' : (v == "") = false := by revert hv; cases v == "" <;> simp
    cases hf : s.flux_instances.find? (fun fi => fi.reference == v) with
    | some t =>
      have hinst : (handleOneCrossRef now s src f v).flux_instances =
          s.flux_instances := by
        rcases (handleOneCrossRef_shape now s src f v).2.2.2.2 with ⟨_, h⟩ | ⟨_, hnone, _⟩
        · exact h
        · rw [hnone] at hf; cases hf
      by_cases hc : t.id ≠ src.id ∧ hasTuple s src.id t.id f v = false
      · have hc2 : s.cross_references.any (fun cr =>
            cr.source_flux_id == src.id && cr.target_flux_id == t.id &&
            cr.reference_field == f && cr.reference_value == v) = false := hc.2
        have hcr : (handleOneCrossRef now s src f v).cross_references =
            s.cross_references ++ [newCrossRef s.next_cross_id src.id t.id f v now] := by
          simp [handleOneCrossRef, hv', hf, hasTuple, hc.1, hc2]
        right
        refine ⟨t.id, by rw [hinst, hf]; rfl, Or.inr ?_⟩
        simp [hasTuple, hcr, List.any_append, newCrossRef]
      · rcases not_and_or.mp hc with h | h
        · have h' : t.id = src.id := not_not.mp h
          right
          refine ⟨t.id, by rw [hinst, hf]; rfl, Or.inl h'⟩
        · have h' : hasTuple s src.id t.id f v = true := by
            revert h; cases hasTuple s src.id t.id f v <;> simp
          have hcr : (handleOneCrossRef now s src f v).cross_references =
              s.cross_references := by
            have hc2 : s.cross_references.any (fun cr =>
                cr.source_flux_id == src.id && cr.target_flux_id == t.id &&
                cr.reference_field == f && cr.reference_value == v) = true := h'
            simp [handleOneCrossRef, hv', hf, hasTuple, hc2]
          right
          refine ⟨t.id, by rw [hinst, hf]; rfl, Or.inr ?_⟩
          simp only [hasTuple] at h' ⊢
          rw [hcr]
          exact h'
    | none =>
      have hinst : (handleOneCrossRef now s src f v).flux_instances =
          s.flux_instances ++
            [freshInstance s.next_flux_id src.flux_type_id v none now] := by
        rcases (handleOneCrossRef_shape now s src f v).2.2.2.2 with
          ⟨hreason, _⟩ | ⟨_, _, h⟩
        · rcases hreason with h1 | h1
          · rw [h1] at hv'; cases hv'
          · exact absurd hf h1
        · exact h
      have hfind2 : (handleOneCrossRef now s src f v).flux_instances.find?
          (fun fi => fi.reference == v) =
            some (freshInstance s.next_flux_id src.flux_type_id v none now) := by
        rw [hinst, find?_append_none hf]
        simp [freshInstance]
      by_cases hc : s.next_flux_id ≠ src.id ∧ hasTuple s src.id s.next_flux_id f v = false
      · have hc2 : s.cross_references.any (fun cr =>
            cr.source_flux_id == src.id && cr.target_flux_id == s.next_flux_id &&
            cr.reference_field == f && cr.reference_value == v) = false := hc.2
        have hcr : (handleOneCrossRef now s src f v).cross_references =
            s.cross_references ++
              [newCrossRef s.next_cross_id src.id s.next_flux_id f v now] := by
          simp [handleOneCrossRef, hv', hf, hasTuple, freshInstance, hc.1, hc2]
        right
        refine ⟨s.next_flux_id, by rw [hfind2]; simp [freshInstance], Or.inr ?_⟩
        simp [hasTuple, hcr, List.any_append, newCrossRef]
      · rcases not_and_or.mp hc with h | h
        · have h' : s.next_flux_id = src.id := not_not.mp h
          right
          exact ⟨s.next_flux_id, by rw [hfind2]; simp [freshInstance], Or.inl h'⟩
        · have h' : hasTuple s src.id s.next_flux_id f v = true := by
            revert h; cases hasTuple s src.id s.next_flux_id f v <;> simp
          have hc2 : s.cross_references.any (fun cr =>
              cr.source_flux_id == src.id && cr.target_flux_id == s.next_flux_id &&
              cr.reference_field == f && cr.reference_value == v) = true := h'
          have hcr : (handleOneCrossRef now s src f v).cross_references =
              s.cross_references := by
            simp [handleOneCrossRef, hv', hf, hasTuple, freshInstance, hc2]
          right
          refine ⟨s.next_flux_id, by rw [hfind2]; simp [freshInstance], Or.inr ?_⟩
          simp only [hasTuple] at h' ⊢
          rw [hcr]
          exact h'

/-- One loop iteration (for any pair) preserves settledness of every
pair. -/
theorem handleOneCrossRef_preserves_settled (now : Nat) (s : Store)
    (src : FluxInstance) (f' v' : String) (i : Nat) (f v : String)
    (h : refSettled s i f v) :
    refSettled (handleOneCrossRef now s src f' v') i f v := by
  refine refSettled_mono s _ i f v ?_ (handleOneCrossRef_shape now s src f' v').2.2.2.1 h
  rcases (handleOneCrossRef_shape now s src f' v').2.2.2.2 with ⟨_, hsame⟩ | ⟨_, _, happ⟩
  · exact ⟨[], by rw [hsame, List.append_nil]⟩
  · exact ⟨_, happ⟩

/-- The whole loop preserves settledness of every pair. -/
theorem handleCrossReferences_preserves_settled (now : Nat) (src : FluxInstance) :
    ∀ (links : List (String × String)) (s : Store) (i : Nat) (f v : String),
      refSettled s i f v →
      refSettled (handleCrossReferences now s src links) i f v := by
  intro links
  induction links with
  | nil => intro s i f v h; exact h
  | cons kv rest ih =>
    intro s i f v h
    exact ih _ i f v (handleOneCrossRef_preserves_settled now s src kv.1 kv.2 i f v h)

/-- After the loop, every pair of the processed list is settled. -/
theorem handleCrossReferences_settles (now : Nat) (src : FluxInstance) :
    ∀ (links : List (String × String)) (s : Store),
      ∀ fv ∈ links,
        refSettled (handleCrossReferences now s src links) src.id fv.1 fv.2 := by
  intro links
  induction links with
  | nil => intro s fv hfv; cases hfv
  | cons kv rest ih =>
    intro s fv hfv
    have hstep : handleCrossReferences now s src (kv :: rest) =
        handleCrossReferences now (handleOneCrossRef now s src kv.1 kv.2) src rest := by
      simp [handleCrossReferences]
    rw [hstep]
    rcases List.mem_cons.mp hfv with h | h
    · subst h
      exact handleCrossReferences_preserves_settled now src rest _ src.id fv.1 fv.2
        (handleOneCrossRef_settles now s src fv.1 fv.2)
    · exact ih _ fv h

/-- A settled pair makes the loop body a no-op. -/
theorem handleOneCrossRef_skip (now : Nat) (s : Store) (src : FluxInstance)
    (f v : String) (h : refSettled s src.id f v) :
    handleOneCrossRef now s src f v = s := by
  rcases h with hv | ⟨tid, hfind, hcase⟩
  · simp [handleOneCrossRef, hv]
  · cases hf : s.flux_instances.find? (fun fi => fi.reference == v) with
    | none => rw [hf] at hfind; cases hfind
    | some t =>
      rw [hf] at hfind
      have htid : t.id = tid := by simpa using hfind
      by_cases hveq : (v == "") = true
      · simp [handleOneCrossRef, hveq]
      · have hv' : (v == "") = false := by revert hveq; cases v == "" <;> simp
        rcases hcase with hid | htup
        · have hts : t.id = src.id := htid.trans hid
          have hb : (t.id != src.id && !(hasTuple s src.id t.id f v)) = false := by
            simp [hts]
          simp [handleOneCrossRef, hv', hf, hb]
        · have htt : hasTuple s src.id t.id f v = true := by rw [htid]; exact htup
          have hb : (t.id != src.id && !(hasTuple s src.id t.id f v)) = false := by
            simp [htt]
          simp [handleOneCrossRef, hv', hf, hb]

/-- When every pair is settled, the whole loop is a no-op. -/
theorem handleCrossReferences_skip (now : Nat) (src : FluxInstance) :
    ∀ (links : List (String × String)) (s : Store),
      (∀ fv ∈ links, refSettled s src.id fv.1 fv.2) →
      handleCrossReferences now s src links = s := by
  intro links
  induction links with
  | nil => intro s h; rfl
  | cons kv rest ih =>
    intro s h
    have hstep : handleCrossReferences now s src (kv :: rest) =
        handleCrossReferences now (handleOneCrossRef now s src kv.1 kv.2) src rest := by
      simp [handleCrossReferences]
    rw [hstep, handleOneCrossRef_skip now s src kv.1 kv.2
      (h kv (List.mem_cons_self kv rest))]
    exact ih s (fun fv hfv => h fv (List.mem_cons_of_mem kv hfv))

/-- `find?` through `bindParent`, for predicates blind to `parent_id` and
`updated_at`. -/
theorem find?_bindParent (now : Nat) (s : Store) (a b : Nat)
    (p : FluxInstance → Bool)
    (hp : ∀ x, p (if x.id == a then { x with parent_id := some b, updated_at := now }
      else x) = p x) :
    (bindParent now s a b).flux_instances.find? p =
      (s.flux_instances.find? p).map
        (fun x => if x.id == a then { x with parent_id := some b, updated_at := now }
          else x) := by
  show (s.flux_instances.map _).find? p = _
  exact find?_map_invariant _ hp s.flux_instances

/-- Replay behaviour of sub-flow handling outside `CREATION_ENFANTS`:
the first run either does nothing or binds a parent, and a second run on
any store with the same instance table (with the correspondingly updated
source row) does nothing. -/
theorem handleSubFlows_replay (now1 now2 : Nat) (S : Store) (fi : FluxInstance)
    (pl : ParsedLog) (hlt : pl.log_type ≠ "CREATION_ENFANTS") :
    ∃ fi₂ : FluxInstance,
      fi₂.id = fi.id ∧ fi₂.flux_type_id = fi.flux_type_id ∧
      fi₂.reference = fi.reference ∧
      ((handleSubFlows now1 S fi pl = S ∧ fi₂ = fi) ∨
       (∃ pid, handleSubFlows now1 S fi pl = bindParent now1 S fi.id pid ∧
         fi₂ = { fi with parent_id := some pid, updated_at := now1 })) ∧
      (∀ Y : Store, Y.flux_instances = (handleSubFlows now1 S fi pl).flux_instances →
        handleSubFlows now2 Y fi₂ pl = Y) := by
  have hce' : (pl.log_type == "CREATION_ENFANTS") = false := by simpa using hlt
  by_cases hte : pl.log_type = "TRAITEMENT_ENFANT"
  · have hte' : (pl.log_type == "TRAITEMENT_ENFANT") = true := by simp [hte]
    cases hpr : dictGet pl.payload_fields "parent_ref" with
    | none =>
      refine ⟨fi, rfl, rfl, rfl,
        Or.inl ⟨by simp [handleSubFlows, hce', hte', hpr], rfl⟩, ?_⟩
      intro Y hY
      simp [handleSubFlows, hce', hte', hpr]
    | some prv =>
      by_cases hprv : (prv == "") = true
      · refine ⟨fi, rfl, rfl, rfl,
          Or.inl ⟨by simp [handleSubFlows, hce', hte', hpr, hprv], rfl⟩, ?_⟩
        intro Y hY
        simp [handleSubFlows, hce', hte', hpr, hprv]
      · have hprv' : (prv == "") = false := by revert hprv; cases prv == "" <;> simp
        cases hparfind : S.flux_instances.find? (fun x => x.reference == prv) with
        | none =>
          have hids : handleSubFlows now1 S fi pl = S := by
            simp [handleSubFlows, hce', hte', hpr, hprv', hparfind]
          refine ⟨fi, rfl, rfl, rfl, Or.inl ⟨hids, rfl⟩, ?_⟩
          intro Y hY
          have hYf : Y.flux_instances.find? (fun x => x.reference == prv) = none := by
            rw [hY, hids]; exact hparfind
          simp [handleSubFlows, hce', hte', hpr, hprv', hYf]
        | some parent =>
          cases hfip : fi.parent_id with
          | some q =>
            have hids : handleSubFlows now1 S fi pl = S := by
              simp [handleSubFlows, hce', hte', hpr, hprv', hparfind, hfip]
            refine ⟨fi, rfl, rfl, rfl, Or.inl ⟨hids, rfl⟩, ?_⟩
            intro Y hY
            have hYf : Y.flux_instances.find? (fun x => x.reference == prv) =
                some parent := by
              rw [hY, hids]; exact hparfind
            simp [handleSubFlows, hce', hte', hpr, hprv', hYf, hfip]
          | none =>
            have hids : handleSubFlows now1 S fi pl =
                bindParent now1 S fi.id parent.id := by
              simp [handleSubFlows, hce', hte', hpr, hprv', hparfind, hfip]
            refine ⟨{ fi with parent_id := some parent.id, updated_at := now1 },
              rfl, rfl, rfl, Or.inr ⟨parent.id, hids, rfl⟩, ?_⟩
            intro Y hY
            have hp : ∀ x : FluxInstance,
                ((if x.id == fi.id then
                    { x with parent_id := some parent.id, updated_at := now1 }
                  else x).reference == prv) = (x.reference == prv) := by
              intro x
              by_cases hx : (x.id == fi.id) = true <;> simp [hx]
            have hYf : Y.flux_instances.find? (fun x => x.reference == prv) =
                some (if parent.id == fi.id then
                  { parent with parent_id := some parent.id, updated_at := now1 }
                else parent) := by
              rw [hY, hids,
                find?_bindParent now1 S fi.id parent.id (fun x => x.reference == prv) hp,
                hparfind]
              rfl
            simp [handleSubFlows, hce', hte', hpr, hprv', hYf]
  · refine ⟨fi, rfl, rfl, rfl,
      Or.inl ⟨handleSubFlows_other now1 S fi pl hlt hte, rfl⟩, ?_⟩
    intro Y hY
    exact handleSubFlows_other now2 Y fi pl hlt hte

/-- Computed form of a replayed processing when the instance is found,
the cross-reference loop is a no-op and the sub-flow step is a no-op:
only a log entry is appended. -/
theorem processParsedLog_replay_core (now2 : Nat) (sX : Store) (pl : ParsedLog)
    (ft : FluxType) (app : Application) (fi₂ : FluxInstance) (r : String)
    (hft2 : sX.flux_types.find? (fun x => x.name == pl.flux_type) = some ft)
    (happ2 : sX.applications.find? (fun a =>
      a.name == pl.application && a.flux_type_id == ft.id) = some app)
    (hmr : mainReference pl.identifier_fields = some r)
    (hfind2 : sX.flux_instances.find? (fun x =>
      x.flux_type_id == ft.id && x.reference == r) = some fi₂)
    (hskip : handleCrossReferences now2 (addLogEntry now2 sX fi₂ app pl) fi₂
      pl.reference_links = addLogEntry now2 sX fi₂ app pl)
    (hsub : handleSubFlows now2 (addLogEntry now2 sX fi₂ app pl) fi₂ pl =
      addLogEntry now2 sX fi₂ app pl) :
    processParsedLog now2 sX pl = (addLogEntry now2 sX fi₂ app pl, true) := by
  have hgoc2 : getOrCreateFluxInstance now2 sX ft.id pl = some (fi₂, sX) := by
    simp [getOrCreateFluxInstance, hmr, hfind2]
  rw [processParsedLog_success now2 sX pl ft app fi₂ sX hft2 happ2 hgoc2, hskip, hsub]

/-- C2 (amended): replaying a successfully processed line whose stage is
not `CREATION_ENFANTS` succeeds again and adds exactly one more LogEntry
while leaving the FluxInstance table (hence all parent/child edges) and
the CrossReference table unchanged.  (For `CREATION_ENFANTS` lines the
replay also duplicates every child: see the counterexample.) -/
theorem c2_replay_adds_one_log (now1 now2 : Nat) (s : Store) (pl : ParsedLog)
    (hlt : pl.log_type ≠ "CREATION_ENFANTS")
    (hok : (processParsedLog now1 s pl).2 = true) :
    (processParsedLog now2 (processParsedLog now1 s pl).1 pl).2 = true ∧
    (processParsedLog now2 (processParsedLog now1 s pl).1 pl).1.flux_instances =
      (processParsedLog now1 s pl).1.flux_instances ∧
    (processParsedLog now2 (processParsedLog now1 s pl).1 pl).1.cross_references =
      (processParsedLog now1 s pl).1.cross_references ∧
    (processParsedLog now2 (processParsedLog now1 s pl).1 pl).1.log_entries.length =
      (processParsedLog now1 s pl).1.log_entries.length + 1 := by
  cases hft : s.flux_types.find? (fun ft => ft.name == pl.flux_type) with
  | none => rw [processParsedLog_noft now1 s pl hft] at hok; simp at hok
  | some ft =>
  cases happ : s.applications.find? (fun a =>
      a.name == pl.application && a.flux_type_id == ft.id) with
  | none => rw [processParsedLog_noapp now1 s pl ft hft happ] at hok; simp at hok
  | some app =>
  cases hgoc : getOrCreateFluxInstance now1 s ft.id pl with
  | none => rw [processParsedLog_nogoc now1 s pl ft app hft happ hgoc] at hok; simp at hok
  | some pr =>
  cases pr with
  | mk fi s1 =>
  rcases getOrCreate_spec now1 s ft.id pl fi s1 hgoc with ⟨r, hmr, hk1, hk2, hcase⟩
  have hs1types : s1.flux_types = s.flux_types := by
    rcases hcase with ⟨_, h⟩ | ⟨_, _, h⟩ <;> rw [h]
  have hs1apps : s1.applications = s.applications := by
    rcases hcase with ⟨_, h⟩ | ⟨_, _, h⟩ <;> rw [h]
  have hfindA : s1.flux_instances.find? (fun x =>
      x.flux_type_id == ft.id && x.reference == r) = some fi := by
    rcases hcase with ⟨hfind, hs1⟩ | ⟨hfind, hfi, hs1⟩
    · rw [hs1]; exact hfind
    · rw [hs1]
      show (s.flux_instances ++ [fi]).find? _ = some fi
      rw [find?_append_none hfind]
      exact List.find?_cons_of_pos _ (by simp [hk1, hk2])
  have hcrS := handleCrossReferences_shape now1 fi pl.reference_links
    (addLogEntry now1 s1 fi app pl)
  have hfind3 : (handleCrossReferences now1 (addLogEntry now1 s1 fi app pl) fi
      pl.reference_links).flux_instances.find? (fun x =>
        x.flux_type_id == ft.id && x.reference == r) = some fi := by
    rcases hcrS.2.2.2.1 with ⟨tl, htl⟩
    rw [htl]
    exact find?_append_some hfindA
  have hsettled := handleCrossReferences_settles now1 fi pl.reference_links
    (addLogEntry now1 s1 fi app pl)
  rcases handleSubFlows_replay now1 now2
    (handleCrossReferences now1 (addLogEntry now1 s1 fi app pl) fi
      pl.reference_links) fi pl hlt with
    ⟨fi₂, hid, hty, hre, hdisj, hrun2⟩
  rw [processParsedLog_success now1 s pl ft app fi s1 hft happ hgoc]
  have hXtypes : (handleSubFlows now1
      (handleCrossReferences now1 (addLogEntry now1 s1 fi app pl) fi
        pl.reference_links) fi pl).flux_types = s.flux_types := by
    rcases hdisj with ⟨h, _⟩ | ⟨pid, h, _⟩ <;> rw [h] <;> exact hcrS.1.trans hs1types
  have hXapps : (handleSubFlows now1
      (handleCrossReferences now1 (addLogEntry now1 s1 fi app pl) fi
        pl.reference_links) fi pl).applications = s.applications := by
    rcases hdisj with ⟨h, _⟩ | ⟨pid, h, _⟩ <;> rw [h] <;> exact hcrS.2.1.trans hs1apps
  have hXfind : (handleSubFlows now1
      (handleCrossReferences now1 (addLogEntry now1 s1 fi app pl) fi
        pl.reference_links) fi pl).flux_instances.find? (fun x =>
          x.flux_type_id == ft.id && x.reference == r) = some fi₂ := by
    rcases hdisj with ⟨h, hfi2⟩ | ⟨pid, h, hfi2⟩
    · rw [h, hfi2]; exact hfind3
    · rw [h]
      have hp : ∀ x : FluxInstance,
          ((if x.id == fi.id then
              { x with parent_id := some pid, updated_at := now1 }
            else x).flux_type_id == ft.id &&
           (if x.id == fi.id then
              { x with parent_id := some pid, updated_at := now1 }
            else x).reference == r) =
          (x.flux_type_id == ft.id && x.reference == r) := by
        intro x
        by_cases hx : (x.id == fi.id) = true <;> simp [hx]
      rw [find?_bindParent now1 _ fi.id pid
        (fun x => x.flux_type_id == ft.id && x.reference == r) hp, hfind3, hfi2]
      simp
  have hXsettled : ∀ fv ∈ pl.reference_links,
      refSettled (handleSubFlows now1
        (handleCrossReferences now1 (addLogEntry now1 s1 fi app pl) fi
          pl.reference_links) fi pl) fi₂.id fv.1 fv.2 := by
    intro fv hfv
    rw [hid]
    rcases hdisj with ⟨h, _⟩ | ⟨pid, h, _⟩
    · rw [h]; exact hsettled fv hfv
    · rw [h]; exact refSettled_bindParent now1 _ fi.id pid fi.id fv.1 fv.2
        (hsettled fv hfv)
  have hskip : handleCrossReferences now2
      (addLogEntry now2 (handleSubFlows now1
        (handleCrossReferences now1 (addLogEntry now1 s1 fi app pl) fi
          pl.reference_links) fi pl) fi₂ app pl) fi₂ pl.reference_links =
      addLogEntry now2 (handleSubFlows now1
        (handleCrossReferences now1 (addLogEntry now1 s1 fi app pl) fi
          pl.reference_links) fi pl) fi₂ app pl := by
    refine handleCrossReferences_skip now2 fi₂ pl.reference_links _ ?_
    intro fv hfv
    exact hXsettled fv hfv
  have hsub : handleSubFlows now2
      (addLogEntry now2 (handleSubFlows now1
        (handleCrossReferences now1 (addLogEntry now1 s1 fi app pl) fi
          pl.reference_links) fi pl) fi₂ app pl) fi₂ pl =
      addLogEntry now2 (handleSubFlows now1
        (handleCrossReferences now1 (addLogEntry now1 s1 fi app pl) fi
          pl.reference_links) fi pl) fi₂ app pl := by
    exact hrun2 _ rfl
  have hcore := processParsedLog_replay_core now2
    (handleSubFlows now1
      (handleCrossReferences now1 (addLogEntry now1 s1 fi app pl) fi
        pl.reference_links) fi pl) pl ft app fi₂ r
    (by rw [hXtypes]; exact hft) (by rw [hXapps]; exact happ) hmr hXfind hskip hsub
  show (processParsedLog now2 (handleSubFlows now1
      (handleCrossReferences now1 (addLogEntry now1 s1 fi app pl) fi
        pl.reference_links) fi pl) pl).2 = true ∧ _ ∧ _ ∧ _
  rw [hcore]
  refine ⟨rfl, rfl, rfl, ?_⟩
  simp [addLogEntry]

/-- Witness for `c2_replay_adds_one_log`: replaying a plain line on the
fresh store adds one log entry and nothing else. -/
theorem c2_replay_adds_one_log_witness :
    (processParsedLog 1 (processParsedLog 0 storeW pl6a).1 pl6a).2 = true ∧
    (processParsedLog 1 (processParsedLog 0 storeW pl6a).1 pl6a).1.flux_instances =
      (processParsedLog 0 storeW pl6a).1.flux_instances ∧
    (processParsedLog 1 (processParsedLog 0 storeW pl6a).1 pl6a).1.cross_references =
      (processParsedLog 0 storeW pl6a).1.cross_references ∧
    (processParsedLog 1 (processParsedLog 0 storeW pl6a).1 pl6a).1.log_entries.length =
      (processParsedLog 0 storeW pl6a).1.log_entries.length + 1 :=
  c2_replay_adds_one_log 0 1 storeW pl6a (by decide) (by decide)

/-- A `CREATION_ENFANTS` line whose child list repeats its own main
reference. -/
def plCE1 : ParsedLog :=
  { timestamp := 1, log_type := "CREATION_ENFANTS", application := "app",
    flux_type := "CMD", identifier_fields := [("cmd", "A")],
    payload_fields := [("enfants_ids", "A")], reference_links := [],
    raw_log := "rCE1" }

/-- Counterexample to C1 as stated: ingesting the single line `plCE1`
into the freshly initialised store leaves two instances with the key
`(CMD, "A")` (one from main-reference resolution, one from the
unconditional child creation), so the uniqueness invariant is violated. -/
theorem c1_counterexample :
    ¬ UniqueKeys ((processAll 0 storeW [plCE1]).flux_instances) := by decide

/-- Counterexample to C2 as stated: replaying the `CREATION_ENFANTS` line
`plCE1` succeeds but creates one more FluxInstance (a duplicate child)
in addition to the extra LogEntry, so the instance count is not
unchanged by the second processing. -/
theorem c2_counterexample :
    (processParsedLog 1 (processParsedLog 0 storeW plCE1).1 plCE1).2 = true ∧
    (processParsedLog 1 (processParsedLog 0 storeW plCE1).1 plCE1).1.flux_instances.length =
      (processParsedLog 0 storeW plCE1).1.flux_instances.length + 1 :=
  ⟨by decide, by decide⟩

/-- Witness for `c1_uniqueness_preserved`: a plain line on the fresh
store keeps the invariant. -/
theorem c1_uniqueness_preserved_witness :
    UniqueKeys ((processParsedLog 0 storeW pl6a).1.flux_instances) :=
  c1_uniqueness_preserved 0 storeW pl6a (by decide) (by decide)

/-- Witness for `c4_atomic_processing`: a line whose identifier fields are
all empty is rejected and leaves the concrete store untouched. -/
theorem c4_atomic_processing_witness :
    (processParsedLog 0 storeW plEmptyId).1 = storeW ∧
    ((processParsedLog 0 storeW plEmptyId).2 = true ↔
      canResolve storeW plEmptyId = true) :=
  ⟨(c4_atomic_processing 0 storeW plEmptyId).1 (by decide),
   (c4_atomic_processing 0 storeW plEmptyId).2⟩

end Tracker
